import Mathlib

/-!
# bingoJS: the game-state engine of `server.js`

A shallow embedding of the server's module state (`bombo`, `numerosSalidos`,
`intervalo`, `juegoEnCurso`, `clientes`) and of the functions that act on it:
`resetBombo`, `generarCarton`, `sacarNumeroDelBombo`, `comprobarGanadoresGlobal`,
`terminarJuego`, `iniciarJuegoAutomatico`, the timer callback it installs, and
the socket handlers (`connection`, `request-cartones`, `iniciar-juego`, `estado`,
`disconnect`).

Conventions of the embedding.

* Module variables become the fields of `Estado`; a function that mutates them
  takes the state and returns the new one next to its JavaScript return value.
* `io.emit` / `io.to(id).emit` append to a list of `Mensaje`, in emission order.
* `Math.random()` is the only source of nondeterminism. The program never uses
  its value other than through `Math.floor(Math.random() * len)`, an integer of
  `0 .. len - 1`. The random source is a natural number `rnd` (one per call),
  and the index is `indiceAleatorio rnd len`.
* `clientes` (a `Map`, iterated in insertion order) is an association list in
  insertion order; a `Map` has no two entries with one key, which theorems that
  identify a client by its id assume as `ClavesUnicas`.
* A handler that throws returns a `Salida` with the failure and the state at the
  throw.
* `Servidor` adds to the module state the intervals that are active on the
  platform, so that "the callback runs" can be told from "the callback would run".
-/

namespace Bingo

/-! ## Data model -/

/-- Line 25: `const FILAS_POR_CARTON = 3`. -/
def FILAS_POR_CARTON : Nat := 3

/-- Line 26: `const NUMEROS_POR_FILA = 7`. -/
def NUMEROS_POR_FILA : Nat := 7

/-- A ticket, line 21 and line 47: `{ filas, rowFlags, bingo }`. -/
structure Carton where
  filas : List (List Nat)
  rowFlags : List Bool
  bingo : Bool
  deriving DecidableEq, Repr

/-- A client record, lines 159-162: `{ cartones, nombre }`. -/
structure Cliente where
  cartones : List Carton
  nombre : String
  deriving DecidableEq, Repr

/-- The registry `clientes`: socket id to client record, in insertion order. -/
abbrev Clientes := List (String × Cliente)

/-- The handle `setInterval` returns (a Node `Timeout` object, always truthy);
the number only tells one handle from another. -/
structure Timeout where
  id : Nat
  deriving DecidableEq, Repr

/-- The module state, lines 16-22. -/
structure Estado where
  bombo : List Nat
  numerosSalidos : List Nat
  intervalo : Option Timeout
  juegoEnCurso : Bool
  clientes : Clientes
  deriving DecidableEq, Repr

/-- The module state right after the file is loaded (lines 16-22). -/
def estadoInicial : Estado :=
  { bombo := [], numerosSalidos := [], intervalo := none, juegoEnCurso := false,
    clientes := [] }

/-- An entry of the array `comprobarGanadoresGlobal` returns (lines 71-76, 81). -/
inductive Evento where
  | linea (socketId : String) (cartonIndex : Nat) (filaIndex : Nat)
  | bingo (socketId : String) (cartonIndex : Nat)
  deriving DecidableEq, Repr

/-- The payload object of an emitted message. -/
inductive Payload where
  | juegoIniciado (quedan : Nat)
  | numero (numero : Nat) (numerosSalidos : List Nat) (quedan : Nat)
  | linea (cartonIndex : Nat) (filaIndex : Nat) (mensaje : String)
  | bingo (cartonIndex : Nat) (mensaje : String)
  | anuncio (tipo : String) (socketId : String) (cartonIndex : Nat)
  | juegoTerminado (razon : String) (numerosSalidos : List Nat) (quedan : Nat)
  | estadoInicial (juegoEnCurso : Bool) (quedan : Nat) (numerosSalidos : List Nat)
  | cartones (cartones : List Carton)
  | iniciarAck (started : Bool)
  | estadoActual (juegoEnCurso : Bool) (quedan : Nat) (numerosSalidos : List Nat)
  deriving DecidableEq, Repr

/-- One emitted message: `destino = none` for `io.emit` (to every connection),
`some id` for `io.to(id).emit`. -/
structure Mensaje where
  destino : Option String
  evento : String
  payload : Payload
  deriving DecidableEq, Repr

/-- No two entries of the registry share a socket id (what a `Map` guarantees). -/
def ClavesUnicas (cl : Clientes) : Prop := (cl.map Prod.fst).Nodup

/-- The ticket a socket id and a ticket index name: `clientes.get(id).cartones[ci]`. -/
def cartonDe (cl : Clientes) (socketId : String) (ci : Nat) : Option Carton :=
  match cl.find? (fun p => p.1 == socketId) with
  | some p => p.2.cartones[ci]?
  | none => none

/-! ## Random indices and `splice` -/

/-- The value of `Math.floor(Math.random() * len)` for the random source `rnd`:
for `0 < len` it ranges over exactly `0 .. len - 1`. -/
def indiceAleatorio (rnd len : Nat) : Nat := rnd % len

/-- On a non-empty array, `idx = Math.floor(Math.random() * xs.length)` followed by
`xs.splice(idx, 1)[0]`: the element removed and the array left. -/
def extraer (rnd : Nat) (xs : List Nat) (h : xs.length ≠ 0) : Nat × List Nat :=
  (xs.get ⟨indiceAleatorio rnd xs.length, Nat.mod_lt rnd (Nat.pos_of_ne_zero h)⟩,
   xs.eraseIdx (indiceAleatorio rnd xs.length))

/-! ## The draw pool -/

/-- Lines 29-32. -/
def resetBombo (s : Estado) : Estado :=
  { s with bombo := List.range 100, numerosSalidos := [] }

/-- Lines 50-56: the returned value (`none` is `null`) and the new state. -/
def sacarNumeroDelBombo (rnd : Nat) (s : Estado) : Option Nat × Estado :=
  if h : s.bombo.length = 0 then (none, s)
  else
    let r := extraer rnd s.bombo h
    (some r.1, { s with bombo := r.2, numerosSalidos := s.numerosSalidos ++ [r.1] })

/-- A run of `sacarNumeroDelBombo` calls, one per random source of the list. -/
def sacarVarios : List Nat → Estado → Estado
  | [], s => s
  | rnd :: rnds, s => sacarVarios rnds (sacarNumeroDelBombo rnd s).2

/-! ## Ticket generation -/

/-- The inner loop of `generarCarton` (lines 40-43) with `n` iterations left;
`k` counts the calls of `Math.random` made so far. The result is `none` when
`disponibles` is empty at a pick, where the source would push `undefined`. -/
def generarFila (rnd : Nat → Nat) : Nat → Nat → List Nat → List Nat →
    Option (List Nat × List Nat)
  | 0, _, disponibles, fila => some (fila, disponibles)
  | n + 1, k, disponibles, fila =>
    if h : disponibles.length = 0 then none
    else
      let r := extraer (rnd k) disponibles h
      generarFila rnd n (k + 1) r.2 (fila ++ [r.1])

/-- The outer loop of `generarCarton` (lines 38-45) with `n` rows left. -/
def generarFilas (rnd : Nat → Nat) : Nat → Nat → List Nat → List (List Nat) →
    Option (List (List Nat))
  | 0, _, _, filas => some filas
  | n + 1, k, disponibles, filas =>
    match generarFila rnd NUMEROS_POR_FILA k disponibles [] with
    | none => none
    | some (fila, disponibles1) =>
      generarFilas rnd n (k + NUMEROS_POR_FILA) disponibles1 (filas ++ [fila])

/-- Lines 34-48; `rnd k` is the random source of the `k`-th call of `Math.random`. -/
def generarCarton (rnd : Nat → Nat) : Option Carton :=
  match generarFilas rnd FILAS_POR_CARTON 0 (List.range 100) [] with
  | none => none
  | some filas => some { filas := filas, rowFlags := [false, false, false], bingo := false }

/-! ## The win scan -/

/-- The test of line 66: `fila.every((n) => numerosSalidos.includes(n))`. -/
def filaCompleta (numerosSalidos fila : List Nat) : Bool :=
  fila.all (fun n => numerosSalidos.contains n)

/-- The truth value of `carton.rowFlags[fi]`: an index past the end reads
`undefined`, which is falsy. -/
def leerFlag (rowFlags : List Bool) (fi : Nat) : Bool := rowFlags.getD fi false

/-- The assignment `carton.rowFlags[fi] = true`. Past the end the array grows to
length `fi + 1`; the holes in between read as falsy and are kept as `false`. -/
def ponerFlag (rowFlags : List Bool) (fi : Nat) : List Bool :=
  if fi < rowFlags.length then rowFlags.set fi true
  else rowFlags ++ List.replicate (fi - rowFlags.length) false ++ [true]

/-- The loop `carton.filas.forEach((fila, fi) => ...)` of lines 65-78 from row
index `fi` on: the row flags after it, by how much `filasCompletas` grew, and the
events pushed, in order. -/
def comprobarFilas (socketId : String) (ci : Nat) (numerosSalidos : List Nat) :
    Nat → List (List Nat) → List Bool → List Bool × Nat × List Evento
  | _, [], rowFlags => (rowFlags, 0, [])
  | fi, fila :: resto, rowFlags =>
    let completos := filaCompleta numerosSalidos fila
    let avisa := completos && !leerFlag rowFlags fi
    let r := comprobarFilas socketId ci numerosSalidos (fi + 1) resto
      (if avisa then ponerFlag rowFlags fi else rowFlags)
    (r.1, (if completos then 1 else 0) + r.2.1,
      (if avisa then [Evento.linea socketId ci fi] else []) ++ r.2.2)

/-- The body of `data.cartones.forEach((carton, ci) => ...)`, lines 62-83, for one
ticket: the ticket after it and the events pushed. -/
def comprobarCarton (socketId : String) (numerosSalidos : List Nat) (ci : Nat)
    (carton : Carton) : Carton × List Evento :=
  if carton.bingo then (carton, [])
  else
    let r := comprobarFilas socketId ci numerosSalidos 0 carton.filas carton.rowFlags
    if r.2.1 = FILAS_POR_CARTON ∧ carton.bingo = false then
      ({ carton with rowFlags := r.1, bingo := true }, r.2.2 ++ [Evento.bingo socketId ci])
    else ({ carton with rowFlags := r.1 }, r.2.2)

/-- The loop `data.cartones.forEach` over the tickets of one client, from ticket
index `ci` on. -/
def comprobarCartones (socketId : String) (numerosSalidos : List Nat) :
    Nat → List Carton → List Carton × List Evento
  | _, [] => ([], [])
  | ci, carton :: resto =>
    let r := comprobarCarton socketId numerosSalidos ci carton
    let rs := comprobarCartones socketId numerosSalidos (ci + 1) resto
    (r.1 :: rs.1, r.2 ++ rs.2)

/-- The loop `for (const [socketId, data] of clientes.entries())`, lines 61-84. -/
def comprobarClientes (numerosSalidos : List Nat) : Clientes → Clientes × List Evento
  | [] => ([], [])
  | (socketId, data) :: resto =>
    let r := comprobarCartones socketId numerosSalidos 0 data.cartones
    let rs := comprobarClientes numerosSalidos resto
    ((socketId, { data with cartones := r.1 }) :: rs.1, r.2 ++ rs.2)

/-- Lines 59-86: the array `eventos` returned and the state with the flags set. -/
def comprobarGanadoresGlobal (s : Estado) : List Evento × Estado :=
  let r := comprobarClientes s.numerosSalidos s.clientes
  (r.2, { s with clientes := r.1 })

/-! ## The session controller -/

/-- Lines 89-97: the new state and the message emitted. -/
def terminarJuego (razon : String) (s : Estado) : Estado × List Mensaje :=
  let s1 : Estado :=
    match s.intervalo with
    | some _ => { s with intervalo := none }
    | none => s
  let s2 : Estado := { s1 with juegoEnCurso := false }
  (s2, [{ destino := none, evento := "juego-terminado",
          payload := Payload.juegoTerminado razon s2.numerosSalidos s2.bombo.length }])

/-- The two messages of lines 120-132 for a `linea` event. -/
def notificarLinea (socketId : String) (ci fi : Nat) : List Mensaje :=
  [{ destino := some socketId, evento := "linea",
     payload := Payload.linea ci fi
       ("Cartón " ++ toString (ci + 1) ++ ": ¡LÍNEA! (fila " ++ toString (fi + 1) ++ ")") },
   { destino := none, evento := "anuncio", payload := Payload.anuncio "linea" socketId ci }]

/-- The two messages of lines 135-143 for a `bingo` event. -/
def notificarBingo (socketId : String) (ci : Nat) : List Mensaje :=
  [{ destino := some socketId, evento := "bingo",
     payload := Payload.bingo ci ("¡BINGO en tu cartón " ++ toString (ci + 1) ++ "!") },
   { destino := none, evento := "anuncio", payload := Payload.anuncio "bingo" socketId ci }]

/-- The reason passed to `terminarJuego` at lines 144-146. -/
def razonBingo (socketId : String) (ci : Nat) : String :=
  "BINGO: socket " ++ socketId ++ " (cartón " ++ toString (ci + 1) ++ ")"

/-- The reason passed to `terminarJuego` at line 109. -/
def razonAgotado : String := "Se han agotado los números"

/-- The loop `for (const ev of eventos)` of lines 118-149, which returns from the
callback at the first `bingo`. -/
def procesarEventos : List Evento → Estado → Estado × List Mensaje
  | [], s => (s, [])
  | Evento.linea socketId ci fi :: resto, s =>
    let r := procesarEventos resto s
    (r.1, notificarLinea socketId ci fi ++ r.2)
  | Evento.bingo socketId ci :: _, s =>
    let r := terminarJuego (razonBingo socketId ci) s
    (r.1, notificarBingo socketId ci ++ r.2)

/-- What one run of the timer callback does: the state it leaves, the messages
it emits in order, and the array `comprobarGanadoresGlobal` returned to it
(`none` when the callback did not call it). -/
structure ResultadoTick where
  estado : Estado
  mensajes : List Mensaje
  eventos : Option (List Evento)
  deriving DecidableEq, Repr

/-- The callback given to `setInterval`, lines 106-150; `rnd` is the random
source of its draw. -/
def tick (rnd : Nat) (s : Estado) : ResultadoTick :=
  match sacarNumeroDelBombo rnd s with
  | (none, s1) =>
    let r := terminarJuego razonAgotado s1
    { estado := r.1, mensajes := r.2, eventos := none }
  | (some numero, s1) =>
    let m : Mensaje :=
      { destino := none, evento := "numero",
        payload := Payload.numero numero s1.numerosSalidos s1.bombo.length }
    let c := comprobarGanadoresGlobal s1
    let r := procesarEventos c.1 c.2
    { estado := r.1, mensajes := m :: r.2, eventos := some c.1 }

/-- Lines 100-153: the returned boolean, the new state and the message emitted;
`h` is the handle `setInterval` returns. -/
def iniciarJuegoAutomatico (h : Timeout) (s : Estado) : Bool × Estado × List Mensaje :=
  if s.juegoEnCurso then (false, s, [])
  else
    let s1 := resetBombo s
    let s2 : Estado := { s1 with juegoEnCurso := true }
    (true, { s2 with intervalo := some h },
      [{ destino := none, evento := "juego-iniciado",
         payload := Payload.juegoIniciado s2.bombo.length }])

/-! ## Runs of the engine -/

/-- The operations on the game state a run is made of: a draw, a start, a stop,
a win scan, and a whole timer tick. -/
inductive Op where
  | sacar (rnd : Nat)
  | iniciar (h : Timeout)
  | terminar (razon : String)
  | comprobar
  | tick (rnd : Nat)
  deriving DecidableEq, Repr

/-- The state an operation leaves. -/
def ejecutar : Op → Estado → Estado
  | Op.sacar rnd, s => (sacarNumeroDelBombo rnd s).2
  | Op.iniciar h, s => (iniciarJuegoAutomatico h s).2.1
  | Op.terminar razon, s => (terminarJuego razon s).1
  | Op.comprobar, s => (comprobarGanadoresGlobal s).2
  | Op.tick rnd, s => (tick rnd s).estado

/-- The state in which an operation calls `comprobarGanadoresGlobal`, if it does:
the current one for a scan, the one after the draw for a tick that drew a number. -/
def escaneoDe : Op → Estado → Option Estado
  | Op.comprobar, s => some s
  | Op.tick rnd, s =>
    match sacarNumeroDelBombo rnd s with
    | (none, _) => none
    | (some _, s1) => some s1
  | _, _ => none

/-- The states in which the scans of a run are made, in order. -/
def escaneos : List Op → Estado → List Estado
  | [], _ => []
  | op :: ops, s => (escaneoDe op s).toList ++ escaneos ops (ejecutar op s)

/-- The array a scan made in state `s` returns. -/
def eventosDe (s : Estado) : List Evento := (comprobarGanadoresGlobal s).1

/-- The field `socketId` of an event. -/
def Evento.socketId : Evento → String
  | Evento.linea socketId _ _ => socketId
  | Evento.bingo socketId _ => socketId

/-- The field `cartonIndex` of an event. -/
def Evento.cartonIndex : Evento → Nat
  | Evento.linea _ ci _ => ci
  | Evento.bingo _ ci => ci

/-- Whether an event is a `bingo` event (`ev.tipo === "bingo"`). -/
def Evento.esBingo : Evento → Bool
  | Evento.linea _ _ _ => false
  | Evento.bingo _ _ => true

/-- The messages the loop of lines 118-149 emits for one event, before it stops
the game or goes on. -/
def notificar : Evento → List Mensaje
  | Evento.linea socketId ci fi => notificarLinea socketId ci fi
  | Evento.bingo socketId ci => notificarBingo socketId ci

/-- The ticket `generarCarton` returns when every random index is 0. -/
def cartonNuevo : Carton :=
  { filas := [[0, 1, 2, 3, 4, 5, 6], [7, 8, 9, 10, 11, 12, 13], [14, 15, 16, 17, 18, 19, 20]],
    rowFlags := [false, false, false], bingo := false }

/-- A sample state before any game: one client who has just received `cartonNuevo`. -/
def estadoNuevo : Estado :=
  { estadoInicial with
    clientes := [("abcdefgh", { cartones := [cartonNuevo], nombre := "Jugador-abcde" })] }

/-- A sample run: a start, 21 ticks that draw 0, 1, .., 20 (the last one ends the
game with a bingo), a scan, a second start and one more tick. -/
def opsEjemplo : List Op :=
  Op.iniciar { id := 1 } :: List.replicate 21 (Op.tick 0) ++
    [Op.comprobar, Op.iniciar { id := 2 }, Op.tick 0]

/-- A sample ticket whose rows are complete once 20 is drawn. -/
def cartonEjemplo : Carton :=
  { filas := [[0, 1, 2, 3, 4, 5, 6], [7, 8, 9, 10, 11, 12, 13], [14, 15, 16, 17, 18, 19, 20]],
    rowFlags := [true, true, false], bingo := false }

/-- A sample running game whose pool is empty: all of `0 .. 99` drawn, in
increasing order, and one client who received a ticket after the last draw. -/
def estadoAgotado : Estado :=
  { bombo := [], numerosSalidos := List.range 100,
    intervalo := some { id := 1 }, juegoEnCurso := true,
    clientes := [("abcdefgh", { cartones := [cartonNuevo], nombre := "Jugador-abcde" })] }

/-- A sample running game: 0 .. 19 drawn, 20 .. 99 left, and two clients; the
draw of 20 completes the ticket of the first and the first row of the second. -/
def estadoEjemplo : Estado :=
  { bombo := List.range' 20 80,
    numerosSalidos := [0, 1, 2, 3, 4, 5, 6, 7, 8, 9, 10, 11, 12, 13, 14, 15, 16, 17, 18, 19],
    intervalo := some { id := 1 }, juegoEnCurso := true,
    clientes :=
      [("abcdefgh", { cartones := [cartonEjemplo], nombre := "Jugador-abcde" }),
       ("zyxwvuts",
        { cartones := [{ filas := [[0, 1, 2, 3, 4, 5, 20], [30, 31, 32, 33, 34, 35, 36],
                                   [40, 41, 42, 43, 44, 45, 46]],
                         rowFlags := [false, false, false], bingo := false }],
          nombre := "Jugador-zyxwv" })] }

/-- The state a run of operations leaves. -/
def ejecutarTodos : List Op → Estado → Estado
  | [], s => s
  | op :: ops, s => ejecutarTodos ops (ejecutar op s)

/-- A sample state before any game: two clients with one fresh ticket each; the
tickets share their first two rows. -/
def estadoDosClientes : Estado :=
  { estadoInicial with
    clientes :=
      [("abcdefgh", { cartones := [cartonNuevo], nombre := "Jugador-abcde" }),
       ("zyxwvuts",
        { cartones := [{ filas := [[0, 1, 2, 3, 4, 5, 6], [7, 8, 9, 10, 11, 12, 13],
                                   [21, 22, 23, 24, 25, 26, 27]],
                         rowFlags := [false, false, false], bingo := false }],
          nombre := "Jugador-zyxwv" })] }

/-- A sample run over two games. The first game draws 0, 1, .., 20 and ends with
the bingo of the first client, the second client having two rows announced. The
second game draws 21, .., 26 in six ticks, and the run stops right after the draw
of 27, before the scan of that tick. -/
def opsDosJuegos : List Op :=
  Op.iniciar { id := 1 } :: List.replicate 21 (Op.tick 0) ++
    Op.iniciar { id := 2 } :: List.replicate 6 (Op.tick 21) ++ [Op.sacar 21]

/-- The state the sample run over two games leaves. -/
def estadoSegundoJuego : Estado := ejecutarTodos opsDosJuegos estadoDosClientes

/-- A sample state for a ticket of one row of three numbers: the history holds
2, 5 and 7, drawn in that order. -/
def estadoUnaFila : Estado :=
  { estadoInicial with
    numerosSalidos := [2, 5, 7], juegoEnCurso := true, intervalo := some { id := 1 },
    clientes :=
      [("abcdefgh",
        { cartones := [{ filas := [[2, 7, 5]], rowFlags := [false, false, false],
                         bingo := false }],
          nombre := "Jugador-abcde" })] }

/-! ## The socket handlers -/

/-- `clientes.get(id)`. -/
def buscarCliente (cl : Clientes) (id : String) : Option Cliente :=
  (cl.find? (fun p => p.1 == id)).map Prod.snd

/-- The registry with the record of `id` changed by `f` (the first entry with that
key, the one `clientes.get(id)` returns), every entry staying in its place. -/
def actualizarCliente (id : String) (f : Cliente → Cliente) : Clientes → Clientes
  | [] => []
  | p :: resto =>
    if p.1 == id then (p.1, f p.2) :: resto else p :: actualizarCliente id f resto

/-- `clientes.set(id, registro)`: a key already present keeps its place and gets
the new value, a new key goes to the end. -/
def fijarCliente (cl : Clientes) (id : String) (registro : Cliente) : Clientes :=
  if (cl.find? (fun p => p.1 == id)).isSome then actualizarCliente id (fun _ => registro) cl
  else cl ++ [(id, registro)]

/-- `clientes.delete(id)`. -/
def borrarCliente (cl : Clientes) (id : String) : Clientes :=
  cl.filter (fun p => !(p.1 == id))

/-- The number of UTF-16 code units of a character in a JavaScript string: one in
the basic plane, two (a surrogate pair) outside it. -/
def unidadesUTF16 (c : Char) : Nat := if c.toNat < 65536 then 1 else 2

/-- The UTF-16 code units of a character. -/
def codigoUTF16 (c : Char) : List Nat :=
  if c.toNat < 65536 then [c.toNat]
  else [55296 + (c.toNat - 65536) / 1024, 56320 + (c.toNat - 65536) % 1024]

/-- The UTF-16 code units of a string, which are what JavaScript indexes. -/
def aUTF16 (cs : List Char) : List Nat := cs.flatMap codigoUTF16

/-- The characters that `slice(0, n)` keeps: those lying within the first `n` code
units. -/
def sliceUTF16 : List Char → Nat → List Char
  | [], _ => []
  | c :: cs, n =>
    if unidadesUTF16 c ≤ n then c :: sliceUTF16 cs (n - unidadesUTF16 c) else []

/-- Whether the cut after `n` code units falls inside a surrogate pair. There
`slice(0, n)` ends in a lone surrogate, which a `String` cannot hold, and
`sliceUTF16` leaves that half character out. -/
def cortaPar : List Char → Nat → Bool
  | [], _ => false
  | c :: cs, n =>
    if unidadesUTF16 c ≤ n then cortaPar cs (n - unidadesUTF16 c) else decide (0 < n)

/-- Line 161: the display name, `Jugador-` followed by `socket.id.slice(0, 5)`, the
first 5 UTF-16 code units of the id. It is the name of the source for every id
whose fifth code unit does not open a surrogate pair (`cortaPar id.data 5 = false`),
in particular for the ASCII ids of the transport. -/
def nombreDe (id : String) : String := "Jugador-" ++ String.mk (sliceUTF16 id.data 5)

/-- How a handler can end other than by returning. -/
inductive Fallo where
  /-- The `TypeError` of reading a property of `undefined`. -/
  | typeError
  /-- A ticket would hold `undefined` (`generarCarton` is `none`). -/
  | indefinido
  deriving DecidableEq, Repr

/-- What a run of a socket handler does: the state it leaves (the state at the
throw when it throws), the messages emitted in order, and the failure if any. -/
structure Salida where
  estado : Estado
  mensajes : List Mensaje
  fallo : Option Fallo
  deriving DecidableEq, Repr

/-- Lines 156-169, the `connection` handler up to the registration of the other
handlers. -/
def alConectar (socketId : String) (s : Estado) : Salida :=
  { estado :=
      { s with
        clientes :=
          fijarCliente s.clientes socketId { cartones := [], nombre := nombreDe socketId } },
    mensajes :=
      [{ destino := some socketId, evento := "estado-inicial",
         payload := Payload.estadoInicial s.juegoEnCurso s.bombo.length s.numerosSalidos }],
    fallo := none }

/-- The loop of lines 175-177 with `n` iterations left: the tickets of the client
after it. `k0` counts the calls of `Math.random` made so far. -/
def agregarCartones (rnd : Nat → Nat) : Nat → Nat → List Carton → Option (List Carton)
  | 0, _, cartones => some cartones
  | n + 1, k0, cartones =>
    match generarCarton (fun k => rnd (k0 + k)) with
    | none => none
    | some carton =>
      agregarCartones rnd n (k0 + FILAS_POR_CARTON * NUMEROS_POR_FILA) (cartones ++ [carton])

/-- Lines 172-180, the `request-cartones` handler of the socket `socketId`.
`cantidad` is the field of the payload, `none` when it is absent (the default 1
applies); the loop `for (let i = 0; i < cantidad; i++)` runs `cantidad` times,
not at all for a count of zero or less. -/
def alRequestCartones (socketId : String) (cantidad : Option Int) (rnd : Nat → Nat)
    (s : Estado) : Salida :=
  match buscarCliente s.clientes socketId with
  | none => { estado := s, mensajes := [], fallo := some Fallo.typeError }
  | some cliente =>
    match agregarCartones rnd (cantidad.getD 1).toNat 0 cliente.cartones with
    | none => { estado := s, mensajes := [], fallo := some Fallo.indefinido }
    | some cartones =>
      { estado :=
          { s with
            clientes :=
              actualizarCliente socketId (fun c => { c with cartones := cartones }) s.clientes },
        mensajes :=
          [{ destino := some socketId, evento := "cartones",
             payload := Payload.cartones cartones }],
        fallo := none }

/-- Lines 183-186, the `iniciar-juego` handler; `h` is the handle `setInterval`
returns if it is called. -/
def alIniciarJuego (socketId : String) (h : Timeout) (s : Estado) : Salida :=
  let r := iniciarJuegoAutomatico h s
  { estado := r.2.1,
    mensajes := r.2.2 ++
      [{ destino := some socketId, evento := "iniciar-ack", payload := Payload.iniciarAck r.1 }],
    fallo := none }

/-- Lines 189-195, the `estado` handler. -/
def alEstado (socketId : String) (s : Estado) : Salida :=
  { estado := s,
    mensajes :=
      [{ destino := some socketId, evento := "estado-actual",
         payload := Payload.estadoActual s.juegoEnCurso s.bombo.length s.numerosSalidos }],
    fallo := none }

/-- Lines 198-201, the `disconnect` handler. -/
def alDisconnect (socketId : String) (s : Estado) : Salida :=
  { estado := { s with clientes := borrarCliente s.clientes socketId },
    mensajes := [], fallo := none }

/-! ## The server and its timers -/

/-- The module state together with the intervals of the platform that are
active: those `setInterval` has created and `clearInterval` has not cancelled.
Only an active interval runs its callback. -/
structure Servidor where
  estado : Estado
  activos : List Timeout
  deriving DecidableEq, Repr

/-- The server right after the file is loaded. -/
def servidorInicial : Servidor := { estado := estadoInicial, activos := [] }

/-- Lines 90-93, `if (intervalo) clearInterval(intervalo)`, on the active intervals. -/
def limpiarIntervalo (intervalo : Option Timeout) (activos : List Timeout) : List Timeout :=
  match intervalo with
  | some h => activos.filter (fun t => decide (t ≠ h))
  | none => activos

/-- Whether a run of the timer callback calls `terminarJuego`: at line 109 when
the draw returned `null`, at line 144 when the event list holds a `bingo`. -/
def tickTermina (r : ResultadoTick) : Bool :=
  match r.eventos with
  | none => true
  | some evs => evs.any Evento.esBingo

/-- What happens to the server: a connection, the four messages a socket can
send, the firing of the interval `h`, and a call of `terminarJuego`. -/
inductive Entrada where
  | connection (socketId : String)
  | requestCartones (socketId : String) (cantidad : Option Int) (rnd : Nat → Nat)
  | iniciarJuego (socketId : String) (h : Timeout)
  | estado (socketId : String)
  | disconnect (socketId : String)
  | tick (h : Timeout) (rnd : Nat)
  | terminar (razon : String)

/-- Whether an input is a start request. -/
def Entrada.esInicio : Entrada → Bool
  | Entrada.iniciarJuego _ _ => true
  | _ => false

/-- The server after one input. The callback of an interval that is not active
does not run. -/
def Servidor.paso : Entrada → Servidor → Servidor
  | Entrada.connection id, sv => { sv with estado := (alConectar id sv.estado).estado }
  | Entrada.requestCartones id cantidad rnd, sv =>
    { sv with estado := (alRequestCartones id cantidad rnd sv.estado).estado }
  | Entrada.iniciarJuego id h, sv =>
    { estado := (alIniciarJuego id h sv.estado).estado,
      activos :=
        if (iniciarJuegoAutomatico h sv.estado).1 then sv.activos ++ [h] else sv.activos }
  | Entrada.estado id, sv => { sv with estado := (alEstado id sv.estado).estado }
  | Entrada.disconnect id, sv => { sv with estado := (alDisconnect id sv.estado).estado }
  | Entrada.tick h rnd, sv =>
    if h ∈ sv.activos then
      { estado := (tick rnd sv.estado).estado,
        activos :=
          if tickTermina (tick rnd sv.estado) then
            limpiarIntervalo sv.estado.intervalo sv.activos
          else sv.activos }
    else sv
  | Entrada.terminar razon, sv =>
    { estado := (terminarJuego razon sv.estado).1,
      activos := limpiarIntervalo sv.estado.intervalo sv.activos }

/-- The server after a sequence of inputs. -/
def Servidor.correr : List Entrada → Servidor → Servidor
  | [], sv => sv
  | e :: es, sv => Servidor.correr es (Servidor.paso e sv)

/-- Whether a sequence of inputs holds a start request. -/
def huboInicio (entradas : List Entrada) : Bool := entradas.any Entrada.esInicio

/-- Between them `bombo` and `numerosSalidos` hold each of `0 .. 99` exactly once. -/
def Particion (s : Estado) : Prop := (s.numerosSalidos ++ s.bombo).Perm (List.range 100)
/-! ## The order of the events of a scan -/

/-- The place of a socket id in the iteration order of the registry. -/
def posicion (cl : Clientes) (id : String) : Nat := (cl.map Prod.fst).indexOf id

/-- Order of two events of one ticket: `linea` events by row index, and every
`linea` before the `bingo`. -/
def Evento.antesEnCarton : Evento → Evento → Prop
  | Evento.linea _ _ fi1, Evento.linea _ _ fi2 => fi1 < fi2
  | Evento.linea _ _ _, Evento.bingo _ _ => True
  | Evento.bingo _ _, _ => False

/-- Order of two events of one client: by ticket index, then within the ticket. -/
def Evento.antesEnCliente (e1 e2 : Evento) : Prop :=
  e1.cartonIndex < e2.cartonIndex ∨
    (e1.cartonIndex = e2.cartonIndex ∧ Evento.antesEnCarton e1 e2)

/-- Order of two events of a scan: by client in registry order, then by ticket
index, then by row index with the `bingo` of a ticket after its `linea` events. -/
def Evento.antes (cl : Clientes) (e1 e2 : Evento) : Prop :=
  posicion cl e1.socketId < posicion cl e2.socketId ∨
    (e1.socketId = e2.socketId ∧ Evento.antesEnCliente e1 e2)

/-- The flag an event stands for is set in the registry: the row flag of the row
for a `linea` event, the bingo flag of the ticket for a `bingo` event. -/
def banderaPuesta (cl : Clientes) : Evento → Prop
  | Evento.linea c ci fi => ∃ k, cartonDe cl c ci = some k ∧ leerFlag k.rowFlags fi = true
  | Evento.bingo c ci => ∃ k, cartonDe cl c ci = some k ∧ k.bingo = true

/-! ## The win scan with the row constant as a parameter

The source fixes `FILAS_POR_CARTON` at 3 (line 25). The scan below is the scan
of lines 59-86 with that constant as the parameter `filasPorCarton`, for the
scenario of the specification that configures tickets of one row; with
`FILAS_POR_CARTON` for the parameter it is `comprobarGanadoresGlobal`. -/

/-- The body of `data.cartones.forEach((carton, ci) => ...)`, lines 62-83, with
`filasPorCarton` for the constant of line 79. -/
def comprobarCartonCon (filasPorCarton : Nat) (socketId : String) (numerosSalidos : List Nat)
    (ci : Nat) (carton : Carton) : Carton × List Evento :=
  if carton.bingo then (carton, [])
  else
    let r := comprobarFilas socketId ci numerosSalidos 0 carton.filas carton.rowFlags
    if r.2.1 = filasPorCarton ∧ carton.bingo = false then
      ({ carton with rowFlags := r.1, bingo := true }, r.2.2 ++ [Evento.bingo socketId ci])
    else ({ carton with rowFlags := r.1 }, r.2.2)

/-- The loop `data.cartones.forEach` from ticket index `ci` on, with
`filasPorCarton` for the constant of line 79. -/
def comprobarCartonesCon (filasPorCarton : Nat) (socketId : String)
    (numerosSalidos : List Nat) : Nat → List Carton → List Carton × List Evento
  | _, [] => ([], [])
  | ci, carton :: resto =>
    let r := comprobarCartonCon filasPorCarton socketId numerosSalidos ci carton
    let rs := comprobarCartonesCon filasPorCarton socketId numerosSalidos (ci + 1) resto
    (r.1 :: rs.1, r.2 ++ rs.2)

/-- The loop of lines 61-84 over the registry, with `filasPorCarton` for the
constant of line 79. -/
def comprobarClientesCon (filasPorCarton : Nat) (numerosSalidos : List Nat) :
    Clientes → Clientes × List Evento
  | [] => ([], [])
  | (socketId, data) :: resto =>
    let r := comprobarCartonesCon filasPorCarton socketId numerosSalidos 0 data.cartones
    let rs := comprobarClientesCon filasPorCarton numerosSalidos resto
    ((socketId, { data with cartones := r.1 }) :: rs.1, r.2 ++ rs.2)

/-- Lines 59-86 with `filasPorCarton` for the constant of line 79: the array
`eventos` returned and the state with the flags set. -/
def comprobarGanadoresGlobalCon (filasPorCarton : Nat) (s : Estado) : List Evento × Estado :=
  let r := comprobarClientesCon filasPorCarton s.numerosSalidos s.clientes
  (r.2, { s with clientes := r.1 })

/-! ## Lemmas on `extraer` and the draw pool -/

theorem indiceAleatorio_lt (rnd : Nat) {len : Nat} (h : len ≠ 0) :
    indiceAleatorio rnd len < len :=
  Nat.mod_lt rnd (Nat.pos_of_ne_zero h)

theorem indiceAleatorio_of_lt {idx len : Nat} (h : idx < len) :
    indiceAleatorio idx len = idx :=
  Nat.mod_eq_of_lt h

theorem partir_en_indice (xs : List Nat) (i : Nat) (h : i < xs.length) :
    ∃ l1 l2, xs = l1 ++ xs.get ⟨i, h⟩ :: l2 ∧ xs.eraseIdx i = l1 ++ l2 ∧ l1.length = i := by
  induction xs generalizing i with
  | nil => simp at h
  | cons x xs ih =>
    cases i with
    | zero => exact ⟨[], xs, by simp, by simp, rfl⟩
    | succ j =>
      have hj : j < xs.length := by simpa using h
      obtain ⟨l1, l2, h1, h2, h3⟩ := ih j hj
      refine ⟨x :: l1, l2, ?_, ?_, by simp [h3]⟩
      · simpa using h1
      · simp [h2]

theorem extraer_split (rnd : Nat) (xs : List Nat) (h : xs.length ≠ 0) :
    ∃ l1 l2, xs = l1 ++ (extraer rnd xs h).1 :: l2 ∧ (extraer rnd xs h).2 = l1 ++ l2 ∧
      l1.length = indiceAleatorio rnd xs.length :=
  partir_en_indice xs (indiceAleatorio rnd xs.length) (indiceAleatorio_lt rnd h)

theorem extraer_perm (rnd : Nat) (xs : List Nat) (h : xs.length ≠ 0) :
    ((extraer rnd xs h).1 :: (extraer rnd xs h).2).Perm xs := by
  obtain ⟨l1, l2, h1, h2, _⟩ := extraer_split rnd xs h
  rw [h2]
  conv_rhs => rw [h1]
  exact (List.perm_middle).symm

theorem extraer_length (rnd : Nat) (xs : List Nat) (h : xs.length ≠ 0) :
    (extraer rnd xs h).2.length + 1 = xs.length := by
  have := (extraer_perm rnd xs h).length_eq
  simpa using this

theorem sacar_perm (rnd : Nat) (s : Estado) :
    ((sacarNumeroDelBombo rnd s).2.numerosSalidos ++ (sacarNumeroDelBombo rnd s).2.bombo).Perm
      (s.numerosSalidos ++ s.bombo) := by
  unfold sacarNumeroDelBombo
  split
  · exact List.Perm.refl _
  · rename_i h
    simp only [List.append_assoc, List.singleton_append]
    exact List.Perm.append_left _ (extraer_perm rnd s.bombo h)

theorem sacarVarios_perm (rnds : List Nat) (s : Estado) :
    ((sacarVarios rnds s).numerosSalidos ++ (sacarVarios rnds s).bombo).Perm
      (s.numerosSalidos ++ s.bombo) := by
  induction rnds generalizing s with
  | nil => exact List.Perm.refl _
  | cons rnd rnds ih => exact (ih _).trans (sacar_perm rnd s)

/-! ## Claims on the draw pool -/

/-- C1: after `resetBombo` and any number of `sacarNumeroDelBombo` calls, whatever
the random index of each call, `bombo` and `numerosSalidos` have no duplicate, are
disjoint, and together hold exactly the integers `0 .. 99`. -/
theorem C1_bombo_salidos_particion (s : Estado) (rnds : List Nat) :
    (sacarVarios rnds (resetBombo s)).bombo.Nodup ∧
    (sacarVarios rnds (resetBombo s)).numerosSalidos.Nodup ∧
    List.Disjoint (sacarVarios rnds (resetBombo s)).bombo
      (sacarVarios rnds (resetBombo s)).numerosSalidos ∧
    ∀ n : Nat, (n ∈ (sacarVarios rnds (resetBombo s)).bombo ∨
      n ∈ (sacarVarios rnds (resetBombo s)).numerosSalidos) ↔ n < 100 := by
  have hp := sacarVarios_perm rnds (resetBombo s)
  have hr : (resetBombo s).numerosSalidos ++ (resetBombo s).bombo = List.range 100 := by
    simp [resetBombo]
  rw [hr] at hp
  have hnd : ((sacarVarios rnds (resetBombo s)).numerosSalidos ++
      (sacarVarios rnds (resetBombo s)).bombo).Nodup :=
    hp.nodup_iff.mpr (List.nodup_range 100)
  rw [List.nodup_append] at hnd
  refine ⟨hnd.2.1, hnd.1, ?_, ?_⟩
  · exact hnd.2.2.symm
  · intro n
    have hm := hp.mem_iff (a := n)
    rw [List.mem_append, List.mem_range] at hm
    rw [← hm]
    exact or_comm

/-- C2: on a non-empty `bombo`, for every random source, `sacarNumeroDelBombo`
returns an element of `bombo`; the new `bombo` is the old one without that one
occurrence (at the random index, the rest in order), the new `numerosSalidos` is
the old one with the number appended, and nothing else changes. -/
theorem C2_sacar_no_vacio (rnd : Nat) (s : Estado) (h : s.bombo ≠ []) :
    ∃ numero l1 l2,
      (sacarNumeroDelBombo rnd s).1 = some numero ∧
      numero ∈ s.bombo ∧
      s.bombo = l1 ++ numero :: l2 ∧
      l1.length = indiceAleatorio rnd s.bombo.length ∧
      (sacarNumeroDelBombo rnd s).2 =
        { s with bombo := l1 ++ l2, numerosSalidos := s.numerosSalidos ++ [numero] } := by
  have hlen : s.bombo.length ≠ 0 := by
    intro h0
    exact h (List.length_eq_zero.mp h0)
  obtain ⟨l1, l2, h1, h2, h3⟩ := extraer_split rnd s.bombo hlen
  refine ⟨(extraer rnd s.bombo hlen).1, l1, l2, ?_, ?_, h1, h3, ?_⟩
  · simp [sacarNumeroDelBombo, hlen]
  · exact (extraer_perm rnd s.bombo hlen).mem_iff.mp (List.mem_cons_self _ _)
  · simp [sacarNumeroDelBombo, hlen, h2]

/-- Witness of C2: a draw with random index 1 from the pool `[4, 8, 15]`. -/
theorem C2_sacar_no_vacio_witness :
    ∃ numero l1 l2,
      (sacarNumeroDelBombo 7 { estadoInicial with bombo := [4, 8, 15] }).1 = some numero ∧
      numero ∈ ({ estadoInicial with bombo := [4, 8, 15] } : Estado).bombo ∧
      ({ estadoInicial with bombo := [4, 8, 15] } : Estado).bombo = l1 ++ numero :: l2 ∧
      l1.length =
        indiceAleatorio 7 ({ estadoInicial with bombo := [4, 8, 15] } : Estado).bombo.length ∧
      (sacarNumeroDelBombo 7 { estadoInicial with bombo := [4, 8, 15] }).2 =
        { ({ estadoInicial with bombo := [4, 8, 15] } : Estado) with
          bombo := l1 ++ l2,
          numerosSalidos :=
            ({ estadoInicial with bombo := [4, 8, 15] } : Estado).numerosSalidos ++ [numero] } :=
  C2_sacar_no_vacio 7 { estadoInicial with bombo := [4, 8, 15] } (by decide)

/-- C3: on an empty `bombo`, `sacarNumeroDelBombo` returns `null` and leaves the
whole state, `bombo` and `numerosSalidos` included, as it was. -/
theorem C3_sacar_vacio (rnd : Nat) (s : Estado) (h : s.bombo = []) :
    sacarNumeroDelBombo rnd s = (none, s) := by
  simp [sacarNumeroDelBombo, h]

/-- Witness of C3: the pool is empty after a game drew everything. -/
theorem C3_sacar_vacio_witness :
    sacarNumeroDelBombo 3 { estadoInicial with numerosSalidos := [2, 0, 1] } =
      (none, { estadoInicial with numerosSalidos := [2, 0, 1] }) :=
  C3_sacar_vacio 3 { estadoInicial with numerosSalidos := [2, 0, 1] } rfl

/-! ## Claims on the session controller -/

theorem terminarJuego_estado (razon : String) (s : Estado) :
    (terminarJuego razon s).1 = { s with intervalo := none, juegoEnCurso := false } := by
  unfold terminarJuego
  cases h : s.intervalo <;> simp [h]

theorem terminarJuego_mensajes (razon : String) (s : Estado) :
    (terminarJuego razon s).2 =
      [{ destino := none, evento := "juego-terminado",
         payload := Payload.juegoTerminado razon s.numerosSalidos s.bombo.length }] := by
  unfold terminarJuego
  cases h : s.intervalo <;> simp [h]

theorem procesarEventos_bingo (pre post : List Evento) (c : String) (ci : Nat) (s : Estado)
    (hpre : ∀ e ∈ pre, e.esBingo = false) :
    procesarEventos (pre ++ Evento.bingo c ci :: post) s =
      ((terminarJuego (razonBingo c ci) s).1,
        pre.flatMap notificar ++ (notificarBingo c ci ++ (terminarJuego (razonBingo c ci) s).2)) := by
  induction pre with
  | nil => simp [procesarEventos]
  | cons e pre ih =>
    have ih1 := ih (fun e1 h1 => hpre e1 (List.mem_cons_of_mem _ h1))
    cases e with
    | linea c1 ci1 fi1 =>
      show ((procesarEventos (pre ++ Evento.bingo c ci :: post) s).1,
        notificarLinea c1 ci1 fi1 ++ (procesarEventos (pre ++ Evento.bingo c ci :: post) s).2) = _
      rw [ih1]
      simp [notificar]
    | bingo c1 ci1 =>
      have := hpre (Evento.bingo c1 ci1) (List.mem_cons_self _ _)
      simp [Evento.esBingo] at this

/-- C7: while `juegoEnCurso` is true, `iniciarJuegoAutomatico` returns false,
leaves every part of the state as it was and emits nothing. -/
theorem C7_iniciar_en_curso (h : Timeout) (s : Estado) (hj : s.juegoEnCurso = true) :
    iniciarJuegoAutomatico h s = (false, s, []) := by
  simp [iniciarJuegoAutomatico, hj]

/-- Witness of C7: a start request during the sample running game. -/
theorem C7_iniciar_en_curso_witness :
    iniciarJuegoAutomatico { id := 2 } estadoEjemplo = (false, estadoEjemplo, []) :=
  C7_iniciar_en_curso { id := 2 } estadoEjemplo rfl

/-- C8: while `juegoEnCurso` is false, `iniciarJuegoAutomatico` returns true,
leaves `bombo` equal to `0 .. 99`, `numerosSalidos` empty, `juegoEnCurso` true and
the timer handle set (the registry untouched), and emits exactly one message, the
broadcast `juego-iniciado` with 100 numbers left, whatever the pool held. -/
theorem C8_iniciar_parado (h : Timeout) (s : Estado) (hj : s.juegoEnCurso = false) :
    (iniciarJuegoAutomatico h s).1 = true ∧
    (iniciarJuegoAutomatico h s).2.1.bombo = List.range 100 ∧
    (iniciarJuegoAutomatico h s).2.1.numerosSalidos = [] ∧
    (iniciarJuegoAutomatico h s).2.1.juegoEnCurso = true ∧
    (iniciarJuegoAutomatico h s).2.1.intervalo = some h ∧
    (iniciarJuegoAutomatico h s).2.1.clientes = s.clientes ∧
    (iniciarJuegoAutomatico h s).2.2 =
      [{ destino := none, evento := "juego-iniciado", payload := Payload.juegoIniciado 100 }] := by
  simp [iniciarJuegoAutomatico, hj, resetBombo]

/-- Witness of C8: a start after a game that left 3 numbers drawn and 2 in the pool. -/
theorem C8_iniciar_parado_witness :
    (iniciarJuegoAutomatico { id := 7 }
      { estadoInicial with bombo := [5, 9], numerosSalidos := [1, 2, 3] }).1 = true ∧
    (iniciarJuegoAutomatico { id := 7 }
      { estadoInicial with bombo := [5, 9], numerosSalidos := [1, 2, 3] }).2.1.bombo
        = List.range 100 ∧
    (iniciarJuegoAutomatico { id := 7 }
      { estadoInicial with bombo := [5, 9], numerosSalidos := [1, 2, 3] }).2.1.numerosSalidos
        = [] ∧
    (iniciarJuegoAutomatico { id := 7 }
      { estadoInicial with bombo := [5, 9], numerosSalidos := [1, 2, 3] }).2.1.juegoEnCurso
        = true ∧
    (iniciarJuegoAutomatico { id := 7 }
      { estadoInicial with bombo := [5, 9], numerosSalidos := [1, 2, 3] }).2.1.intervalo
        = some { id := 7 } ∧
    (iniciarJuegoAutomatico { id := 7 }
      { estadoInicial with bombo := [5, 9], numerosSalidos := [1, 2, 3] }).2.1.clientes
        = ({ estadoInicial with bombo := [5, 9], numerosSalidos := [1, 2, 3] } : Estado).clientes ∧
    (iniciarJuegoAutomatico { id := 7 }
      { estadoInicial with bombo := [5, 9], numerosSalidos := [1, 2, 3] }).2.2 =
      [{ destino := none, evento := "juego-iniciado", payload := Payload.juegoIniciado 100 }] :=
  C8_iniciar_parado { id := 7 }
    { estadoInicial with bombo := [5, 9], numerosSalidos := [1, 2, 3] } rfl

theorem primer_bingo (evs : List Evento) (hb : ∃ e ∈ evs, e.esBingo = true) :
    ∃ pre c ci post, evs = pre ++ Evento.bingo c ci :: post ∧ ∀ e ∈ pre, e.esBingo = false := by
  induction evs with
  | nil =>
    obtain ⟨e, he, _⟩ := hb
    simp at he
  | cons e evs ih =>
    cases e with
    | bingo c ci => exact ⟨[], c, ci, evs, rfl, by simp⟩
    | linea c1 ci1 fi1 =>
      obtain ⟨e, he, hbe⟩ := hb
      rcases List.mem_cons.mp he with h1 | h1
      · rw [h1] at hbe
        simp [Evento.esBingo] at hbe
      · obtain ⟨pre, c, ci, post, h2, h3⟩ := ih ⟨e, h1, hbe⟩
        refine ⟨Evento.linea c1 ci1 fi1 :: pre, c, ci, post, by simp [h2], ?_⟩
        intro e1 he1
        rcases List.mem_cons.mp he1 with h4 | h4
        · rw [h4]
          rfl
        · exact h3 e1 h4

theorem tick_primer_bingo (rnd : Nat) (s : Estado) (pre post : List Evento)
    (c : String) (ci : Nat)
    (hscan : (tick rnd s).eventos = some (pre ++ Evento.bingo c ci :: post))
    (hpre : ∀ e ∈ pre, e.esBingo = false) :
    ∃ numero,
      (sacarNumeroDelBombo rnd s).1 = some numero ∧
      (tick rnd s).mensajes =
        [{ destino := none, evento := "numero",
           payload := Payload.numero numero (sacarNumeroDelBombo rnd s).2.numerosSalidos
             (sacarNumeroDelBombo rnd s).2.bombo.length }] ++
        pre.flatMap notificar ++
        [{ destino := some c, evento := "bingo",
           payload := Payload.bingo ci ("¡BINGO en tu cartón " ++ toString (ci + 1) ++ "!") },
         { destino := none, evento := "anuncio", payload := Payload.anuncio "bingo" c ci }] ++
        [{ destino := none, evento := "juego-terminado",
           payload := Payload.juegoTerminado (razonBingo c ci)
             (sacarNumeroDelBombo rnd s).2.numerosSalidos
             (sacarNumeroDelBombo rnd s).2.bombo.length }] ∧
      (tick rnd s).estado.juegoEnCurso = false ∧
      (tick rnd s).estado.intervalo = none := by
  unfold tick at hscan ⊢
  rcases hd : sacarNumeroDelBombo rnd s with ⟨_ | numero, s1⟩
  · rw [hd] at hscan
    simp at hscan
  · rw [hd] at hscan
    simp only [Option.some.injEq] at hscan
    refine ⟨numero, rfl, ?_, ?_, ?_⟩
    · simp only [hscan, procesarEventos_bingo pre post c ci _ hpre, terminarJuego_mensajes,
        notificarBingo]
      simp [comprobarGanadoresGlobal]
    · simp only [hscan, procesarEventos_bingo pre post c ci _ hpre, terminarJuego_estado]
    · simp only [hscan, procesarEventos_bingo pre post c ci _ hpre, terminarJuego_estado]

/-- C9: when the win scan of a tick returns a list `evs` that holds a `bingo` event,
`evs` is `pre ++ bingo :: post` with no `bingo` in `pre`, and the tick emits, after
the `numero` broadcast of its draw, the notifications of the events of `pre` in
order, the targeted `bingo` and the broadcast `anuncio` of that first `bingo`, then
one `juego-terminado` naming the winner, and nothing for `post`; it leaves
`juegoEnCurso` false and the timer handle cleared. -/
theorem C9_tick_primer_bingo (rnd : Nat) (s : Estado) (evs : List Evento)
    (hscan : (tick rnd s).eventos = some evs) (hb : ∃ e ∈ evs, e.esBingo = true) :
    ∃ pre c ci post numero,
      evs = pre ++ Evento.bingo c ci :: post ∧
      (∀ e ∈ pre, e.esBingo = false) ∧
      (sacarNumeroDelBombo rnd s).1 = some numero ∧
      (tick rnd s).mensajes =
        [{ destino := none, evento := "numero",
           payload := Payload.numero numero (sacarNumeroDelBombo rnd s).2.numerosSalidos
             (sacarNumeroDelBombo rnd s).2.bombo.length }] ++
        pre.flatMap notificar ++
        [{ destino := some c, evento := "bingo",
           payload := Payload.bingo ci ("¡BINGO en tu cartón " ++ toString (ci + 1) ++ "!") },
         { destino := none, evento := "anuncio", payload := Payload.anuncio "bingo" c ci }] ++
        [{ destino := none, evento := "juego-terminado",
           payload := Payload.juegoTerminado (razonBingo c ci)
             (sacarNumeroDelBombo rnd s).2.numerosSalidos
             (sacarNumeroDelBombo rnd s).2.bombo.length }] ∧
      (tick rnd s).estado.juegoEnCurso = false ∧
      (tick rnd s).estado.intervalo = none := by
  obtain ⟨pre, c, ci, post, h1, h2⟩ := primer_bingo evs hb
  rw [h1] at hscan
  obtain ⟨numero, h3⟩ := tick_primer_bingo rnd s pre post c ci hscan h2
  exact ⟨pre, c, ci, post, numero, h1, h2, h3⟩

/-- Witness of C9: in the sample game the draw of 20 completes the first client's
ticket; the scan returns a `linea`, the `bingo`, and a `linea` of the second client. -/
theorem C9_tick_primer_bingo_witness :
    (tick 0 estadoEjemplo).eventos =
      some [Evento.linea "abcdefgh" 0 2, Evento.bingo "abcdefgh" 0,
        Evento.linea "zyxwvuts" 0 0] ∧
    (∃ e ∈ [Evento.linea "abcdefgh" 0 2, Evento.bingo "abcdefgh" 0,
        Evento.linea "zyxwvuts" 0 0], e.esBingo = true) ∧
    ∃ pre c ci post numero,
      [Evento.linea "abcdefgh" 0 2, Evento.bingo "abcdefgh" 0,
        Evento.linea "zyxwvuts" 0 0] = pre ++ Evento.bingo c ci :: post ∧
      (∀ e ∈ pre, e.esBingo = false) ∧
      (sacarNumeroDelBombo 0 estadoEjemplo).1 = some numero ∧
      (tick 0 estadoEjemplo).mensajes =
        [{ destino := none, evento := "numero",
           payload := Payload.numero numero (sacarNumeroDelBombo 0 estadoEjemplo).2.numerosSalidos
             (sacarNumeroDelBombo 0 estadoEjemplo).2.bombo.length }] ++
        pre.flatMap notificar ++
        [{ destino := some c, evento := "bingo",
           payload := Payload.bingo ci ("¡BINGO en tu cartón " ++ toString (ci + 1) ++ "!") },
         { destino := none, evento := "anuncio", payload := Payload.anuncio "bingo" c ci }] ++
        [{ destino := none, evento := "juego-terminado",
           payload := Payload.juegoTerminado (razonBingo c ci)
             (sacarNumeroDelBombo 0 estadoEjemplo).2.numerosSalidos
             (sacarNumeroDelBombo 0 estadoEjemplo).2.bombo.length }] ∧
      (tick 0 estadoEjemplo).estado.juegoEnCurso = false ∧
      (tick 0 estadoEjemplo).estado.intervalo = none :=
  ⟨by decide, by decide,
   C9_tick_primer_bingo 0 estadoEjemplo
     [Evento.linea "abcdefgh" 0 2, Evento.bingo "abcdefgh" 0, Evento.linea "zyxwvuts" 0 0]
     (by decide) (by decide)⟩

/-- C10: a tick that runs with `bombo` empty does not call the win scan; it leaves
`juegoEnCurso` false and the timer handle cleared, emits exactly one message,
`juego-terminado` with the numbers-exhausted reason (so no `numero`), and leaves
`bombo`, `numerosSalidos` and the registry with every ticket flag as they were. -/
theorem C10_tick_bombo_vacio (rnd : Nat) (s : Estado) (h : s.bombo = []) :
    (tick rnd s).eventos = none ∧
    (tick rnd s).estado = { s with intervalo := none, juegoEnCurso := false } ∧
    (tick rnd s).mensajes =
      [{ destino := none, evento := "juego-terminado",
         payload := Payload.juegoTerminado "Se han agotado los números" s.numerosSalidos 0 }] ∧
    (∀ m ∈ (tick rnd s).mensajes, m.evento ≠ "numero") ∧
    (tick rnd s).estado.numerosSalidos = s.numerosSalidos ∧
    (tick rnd s).estado.clientes = s.clientes := by
  have hs : sacarNumeroDelBombo rnd s = (none, s) := by simp [sacarNumeroDelBombo, h]
  have he : (tick rnd s).eventos = none := by simp [tick, hs]
  have h1 : (tick rnd s).estado = { s with intervalo := none, juegoEnCurso := false } := by
    simp [tick, hs, terminarJuego_estado]
  have h2 : (tick rnd s).mensajes =
      [{ destino := none, evento := "juego-terminado",
         payload := Payload.juegoTerminado "Se han agotado los números" s.numerosSalidos 0 }] := by
    simp [tick, hs, terminarJuego_mensajes, razonAgotado, h]
  refine ⟨he, h1, h2, ?_, ?_, ?_⟩
  · intro m hm
    rw [h2] at hm
    simp only [List.mem_singleton] at hm
    rw [hm]
    show "juego-terminado" ≠ "numero"
    decide
  · rw [h1]
  · rw [h1]

/-- Witness of C10: the tick that follows the hundredth draw of a game. -/
theorem C10_tick_bombo_vacio_witness :
    estadoAgotado.bombo = [] ∧
    (tick 4 estadoAgotado).eventos = none ∧
    (tick 4 estadoAgotado).estado =
      { estadoAgotado with intervalo := none, juegoEnCurso := false } ∧
    (tick 4 estadoAgotado).mensajes =
      [{ destino := none, evento := "juego-terminado",
         payload := Payload.juegoTerminado "Se han agotado los números"
           estadoAgotado.numerosSalidos 0 }] ∧
    (∀ m ∈ (tick 4 estadoAgotado).mensajes, m.evento ≠ "numero") ∧
    (tick 4 estadoAgotado).estado.numerosSalidos = estadoAgotado.numerosSalidos ∧
    (tick 4 estadoAgotado).estado.clientes = estadoAgotado.clientes :=
  ⟨by decide, C10_tick_bombo_vacio 4 estadoAgotado (by decide)⟩

/-! ## Ticket generation -/

theorem generarFila_spec (rnd : Nat → Nat) (n k : Nat) (disp fila : List Nat)
    (h : n ≤ disp.length) :
    ∃ fila1 disp1, generarFila rnd n k disp fila = some (fila1, disp1) ∧
      fila1.length = fila.length + n ∧ disp1.length + n = disp.length ∧
      (fila1 ++ disp1).Perm (fila ++ disp) := by
  induction n generalizing k disp fila with
  | zero => exact ⟨fila, disp, rfl, rfl, rfl, List.Perm.refl _⟩
  | succ n ih =>
    have hlen : disp.length ≠ 0 := by omega
    have hl := extraer_length (rnd k) disp hlen
    have hp := extraer_perm (rnd k) disp hlen
    obtain ⟨fila1, disp1, h1, h2, h3, h4⟩ :=
      ih (k + 1) (extraer (rnd k) disp hlen).2 (fila ++ [(extraer (rnd k) disp hlen).1])
        (by omega)
    refine ⟨fila1, disp1, ?_, ?_, ?_, ?_⟩
    · simp only [generarFila, hlen, ↓reduceDIte]
      exact h1
    · simp only [List.length_append, List.length_singleton] at h2
      omega
    · omega
    · refine h4.trans ?_
      simp only [List.append_assoc, List.singleton_append]
      exact List.Perm.append_left _ hp

theorem generarFilas_spec (rnd : Nat → Nat) (n k : Nat) (disp : List Nat)
    (filas : List (List Nat)) (h : n * NUMEROS_POR_FILA ≤ disp.length) :
    ∃ filas1 disp1, generarFilas rnd n k disp filas = some filas1 ∧
      filas1.length = filas.length + n ∧
      (∀ f ∈ filas1, f ∈ filas ∨ f.length = NUMEROS_POR_FILA) ∧
      (filas1.flatten ++ disp1).Perm (filas.flatten ++ disp) := by
  induction n generalizing k disp filas with
  | zero =>
    exact ⟨filas, disp, rfl, rfl, fun f hf => Or.inl hf, List.Perm.refl _⟩
  | succ n ih =>
    have h7 : NUMEROS_POR_FILA ≤ disp.length := by
      rw [Nat.succ_mul] at h
      omega
    obtain ⟨fila, d1, g1, g2, g3, g4⟩ := generarFila_spec rnd NUMEROS_POR_FILA k disp [] h7
    have hd1 : n * NUMEROS_POR_FILA ≤ d1.length := by
      rw [Nat.succ_mul] at h
      omega
    obtain ⟨filas1, disp1, h1, h2, h3, h4⟩ :=
      ih (k + NUMEROS_POR_FILA) d1 (filas ++ [fila]) hd1
    refine ⟨filas1, disp1, ?_, ?_, ?_, ?_⟩
    · simp only [generarFilas, g1]
      exact h1
    · simp only [List.length_append, List.length_singleton] at h2
      omega
    · intro f hf
      rcases h3 f hf with hm | hm
      · rw [List.mem_append, List.mem_singleton] at hm
        rcases hm with hm | hm
        · exact Or.inl hm
        · right
          rw [hm, g2]
          simp
      · exact Or.inr hm
    · refine h4.trans ?_
      simp only [List.flatten_append, List.flatten_cons, List.flatten_nil, List.append_nil,
        List.append_assoc]
      simp only [List.nil_append] at g4
      exact List.Perm.append_left _ g4

theorem generarCarton_spec (rnd : Nat → Nat) :
    ∃ carton, generarCarton rnd = some carton ∧
      carton.filas.length = 3 ∧
      (∀ fila ∈ carton.filas, fila.length = 7) ∧
      (∀ n ∈ carton.filas.flatten, n < 100) ∧
      carton.filas.flatten.Nodup ∧
      carton.rowFlags = [false, false, false] ∧
      carton.bingo = false := by
  obtain ⟨filas, disp1, h1, h2, h3, h4⟩ :=
    generarFilas_spec rnd FILAS_POR_CARTON 0 (List.range 100) []
      (by simp [FILAS_POR_CARTON, NUMEROS_POR_FILA])
  simp only [List.flatten_nil, List.nil_append] at h4
  have hnd : (filas.flatten ++ disp1).Nodup := h4.nodup_iff.mpr (List.nodup_range 100)
  refine ⟨{ filas := filas, rowFlags := [false, false, false], bingo := false },
    ?_, ?_, ?_, ?_, ?_, rfl, rfl⟩
  · simp only [generarCarton, h1]
  · simpa [FILAS_POR_CARTON] using h2
  · intro fila hf
    rcases h3 fila hf with hm | hm
    · simp at hm
    · simpa [NUMEROS_POR_FILA] using hm
  · intro n hn
    have : n ∈ filas.flatten ++ disp1 := List.mem_append_left _ hn
    exact List.mem_range.mp (h4.mem_iff.mp this)
  · exact (List.nodup_append.mp hnd).1

/-- C4: whatever the random choices, `generarCarton` returns a ticket of exactly
3 rows of exactly 7 numbers, the 21 numbers are below 100 and pairwise distinct
over the whole ticket, and the three row flags and the bingo flag are false. -/
theorem C4_generarCarton (rnd : Nat → Nat) :
    ∃ carton, generarCarton rnd = some carton ∧
      carton.filas.length = 3 ∧
      (∀ fila ∈ carton.filas, fila.length = 7) ∧
      (∀ n ∈ carton.filas.flatten, n < 100) ∧
      carton.filas.flatten.Nodup ∧
      carton.rowFlags = [false, false, false] ∧
      carton.bingo = false :=
  generarCarton_spec rnd

/-! ## The win scan: rows of one ticket -/

theorem filaCompleta_iff (ns fila : List Nat) :
    filaCompleta ns fila = true ↔ ∀ n ∈ fila, n ∈ ns := by
  simp [filaCompleta, List.all_eq_true]

theorem leerFlag_ponerFlag (rf : List Bool) (i j : Nat) :
    leerFlag (ponerFlag rf i) j = if j = i then true else leerFlag rf j := by
  unfold leerFlag ponerFlag
  by_cases hi : i < rf.length
  · simp only [hi, if_true, List.getD_eq_getElem?_getD, List.getElem?_set]
    by_cases hji : j = i
    · subst hji
      simp [hi]
    · have : ¬ i = j := fun h => hji h.symm
      simp [hji, this]
  · simp only [hi, if_false, List.getD_eq_getElem?_getD]
    have hle : rf.length ≤ i := Nat.le_of_not_lt hi
    by_cases hj : j < rf.length
    · have hji : j ≠ i := by omega
      rw [List.append_assoc, List.getElem?_append_left hj]
      simp [hji]
    · have hlej : rf.length ≤ j := Nat.le_of_not_lt hj
      rw [List.append_assoc, List.getElem?_append_right hlej]
      rw [List.getElem?_eq_none hlej]
      by_cases hji : j = i
      · subst hji
        simp [List.getElem?_append_right]
      · simp only [hji, if_false, Option.getD_none]
        by_cases hlt : j < i
        · have h1 : j - rf.length < (List.replicate (i - rf.length) false).length := by
            simp only [List.length_replicate]
            omega
          rw [List.getElem?_append_left h1]
          have h3 : j - rf.length < i - rf.length := by omega
          simp [List.getElem?_replicate, h3]
        · have h1 : (List.replicate (i - rf.length) false).length ≤ j - rf.length := by
            simp only [List.length_replicate]
            omega
          rw [List.getElem?_append_right h1]
          simp only [List.length_replicate]
          have h2 : j - rf.length - (i - rf.length) = (j - i - 1) + 1 := by omega
          rw [h2]
          simp

theorem leerFlag_ponerFlag_mono (rf : List Bool) (i j : Nat) (h : leerFlag rf j = true) :
    leerFlag (ponerFlag rf i) j = true := by
  rw [leerFlag_ponerFlag]
  split <;> simp [h]


theorem comprobarFilas_cons (c : String) (ci : Nat) (ns : List Nat) (fi : Nat)
    (fila : List Nat) (resto : List (List Nat)) (rf : List Bool) :
    comprobarFilas c ci ns fi (fila :: resto) rf =
      ((comprobarFilas c ci ns (fi + 1) resto
          (if (filaCompleta ns fila && !leerFlag rf fi) = true then ponerFlag rf fi else rf)).1,
       (if filaCompleta ns fila = true then 1 else 0) +
        (comprobarFilas c ci ns (fi + 1) resto
          (if (filaCompleta ns fila && !leerFlag rf fi) = true then ponerFlag rf fi else rf)).2.1,
       (if (filaCompleta ns fila && !leerFlag rf fi) = true then [Evento.linea c ci fi] else []) ++
        (comprobarFilas c ci ns (fi + 1) resto
          (if (filaCompleta ns fila && !leerFlag rf fi) = true then ponerFlag rf fi else rf)).2.2) :=
  rfl

theorem leerFlag_paso_mono (ns fila : List Nat) (rf : List Bool) (fi j : Nat)
    (h : leerFlag rf j = true) :
    leerFlag (if (filaCompleta ns fila && !leerFlag rf fi) = true then ponerFlag rf fi else rf) j
      = true := by
  split
  · exact leerFlag_ponerFlag_mono rf fi j h
  · exact h

theorem comprobarFilas_mono (c : String) (ci : Nat) (ns : List Nat) (filas : List (List Nat)) :
    ∀ (fi0 : Nat) (rf : List Bool) (j : Nat), leerFlag rf j = true →
      leerFlag (comprobarFilas c ci ns fi0 filas rf).1 j = true := by
  induction filas with
  | nil => intro fi0 rf j h; exact h
  | cons fila resto ih =>
    intro fi0 rf j h
    rw [comprobarFilas_cons]
    exact ih (fi0 + 1) _ j (leerFlag_paso_mono ns fila rf fi0 j h)

theorem comprobarFilas_eventos (c : String) (ci : Nat) (ns : List Nat)
    (filas : List (List Nat)) :
    ∀ (fi0 : Nat) (rf : List Bool) (e : Evento),
      e ∈ (comprobarFilas c ci ns fi0 filas rf).2.2 →
      ∃ i fila, e = Evento.linea c ci (fi0 + i) ∧ filas[i]? = some fila ∧
        filaCompleta ns fila = true ∧ leerFlag rf (fi0 + i) = false := by
  induction filas with
  | nil => intro fi0 rf e h; simp [comprobarFilas] at h
  | cons fila resto ih =>
    intro fi0 rf e h
    rw [comprobarFilas_cons] at h
    rcases List.mem_append.mp h with h1 | h1
    · by_cases hav : (filaCompleta ns fila && !leerFlag rf fi0) = true
      · rw [if_pos hav] at h1
        simp only [Bool.and_eq_true, Bool.not_eq_true', ] at hav
        exact ⟨0, fila, by simpa using h1, by simp, hav.1, hav.2⟩
      · rw [if_neg hav] at h1
        simp at h1
    · obtain ⟨i, f, he, hf, hc, hl⟩ := ih (fi0 + 1) _ e h1
      refine ⟨i + 1, f, ?_, by simpa using hf, hc, ?_⟩
      · rw [he]
        congr 1
        omega
      · cases hb : leerFlag rf (fi0 + (i + 1)) with
        | false => rfl
        | true =>
          have := leerFlag_paso_mono ns fila rf fi0 (fi0 + (i + 1)) hb
          rw [show fi0 + (i + 1) = fi0 + 1 + i by omega] at this
          rw [this] at hl
          exact absurd hl (by decide)

theorem comprobarFilas_avisada (c : String) (ci : Nat) (ns : List Nat)
    (filas : List (List Nat)) :
    ∀ (fi0 : Nat) (rf : List Bool) (j : Nat),
      Evento.linea c ci j ∈ (comprobarFilas c ci ns fi0 filas rf).2.2 →
      leerFlag (comprobarFilas c ci ns fi0 filas rf).1 j = true := by
  induction filas with
  | nil => intro fi0 rf j h; simp [comprobarFilas] at h
  | cons fila resto ih =>
    intro fi0 rf j h
    rw [comprobarFilas_cons] at h ⊢
    rcases List.mem_append.mp h with h1 | h1
    · by_cases hav : (filaCompleta ns fila && !leerFlag rf fi0) = true
      · rw [if_pos hav] at h1 ⊢
        have hj : j = fi0 := by simpa using h1
        subst hj
        apply comprobarFilas_mono
        rw [leerFlag_ponerFlag]
        simp
      · rw [if_neg hav] at h1
        simp at h1
    · exact ih (fi0 + 1) _ j h1

theorem comprobarFilas_flag_origen (c : String) (ci : Nat) (ns : List Nat)
    (filas : List (List Nat)) :
    ∀ (fi0 : Nat) (rf : List Bool) (j : Nat),
      leerFlag (comprobarFilas c ci ns fi0 filas rf).1 j = true →
      leerFlag rf j = true ∨ Evento.linea c ci j ∈ (comprobarFilas c ci ns fi0 filas rf).2.2 := by
  induction filas with
  | nil => intro fi0 rf j h; exact Or.inl h
  | cons fila resto ih =>
    intro fi0 rf j h
    rw [comprobarFilas_cons] at h ⊢
    rcases ih (fi0 + 1) _ j h with h1 | h1
    · by_cases hav : (filaCompleta ns fila && !leerFlag rf fi0) = true
      · rw [if_pos hav] at h1
        rw [leerFlag_ponerFlag] at h1
        by_cases hj : j = fi0
        · right
          simp only [if_pos hav]
          rw [hj]
          exact List.mem_append_left _ (List.mem_singleton.mpr rfl)
        · rw [if_neg hj] at h1
          exact Or.inl h1
      · rw [if_neg hav] at h1
        exact Or.inl h1
    · exact Or.inr (List.mem_append_right _ h1)

theorem comprobarFilas_cuenta (c : String) (ci : Nat) (ns : List Nat)
    (filas : List (List Nat)) :
    ∀ (fi0 : Nat) (rf : List Bool),
      (comprobarFilas c ci ns fi0 filas rf).2.1 ≤ filas.length ∧
      ((comprobarFilas c ci ns fi0 filas rf).2.1 = filas.length →
        ∀ i, i < filas.length → leerFlag (comprobarFilas c ci ns fi0 filas rf).1 (fi0 + i) = true) := by
  induction filas with
  | nil =>
    intro fi0 rf
    refine ⟨by simp [comprobarFilas], ?_⟩
    intro _ i hi
    simp at hi
  | cons fila resto ih =>
    intro fi0 rf
    rw [comprobarFilas_cons]
    obtain ⟨ih1, ih2⟩ := ih (fi0 + 1)
      (if (filaCompleta ns fila && !leerFlag rf fi0) = true then ponerFlag rf fi0 else rf)
    simp only [List.length_cons]
    refine ⟨by split <;> omega, ?_⟩
    intro htot i hi
    have hc : filaCompleta ns fila = true := by
      by_contra hne
      rw [if_neg hne] at htot
      omega
    rw [if_pos hc] at htot
    cases i with
    | zero =>
      apply comprobarFilas_mono
      cases hb : leerFlag rf fi0 with
      | true => simp [hc, hb]
      | false =>
        simp only [hc, hb, Bool.not_false, Bool.and_self, if_true, Nat.add_zero]
        rw [leerFlag_ponerFlag]
        simp
    | succ i =>
      have := ih2 (by omega) i (by omega)
      rw [show fi0 + (i + 1) = fi0 + 1 + i by omega]
      exact this


/-! ## The win scan: one ticket -/

theorem comprobarCarton_ganado (c : String) (ns : List Nat) (ci : Nat) (k : Carton)
    (h : k.bingo = true) : comprobarCarton c ns ci k = (k, []) := by
  simp [comprobarCarton, h]

theorem comprobarCarton_filas (c : String) (ns : List Nat) (ci : Nat) (k : Carton) :
    (comprobarCarton c ns ci k).1.filas = k.filas := by
  unfold comprobarCarton
  split
  · rfl
  · simp only []
    split <;> rfl

theorem comprobarCarton_rowFlags (c : String) (ns : List Nat) (ci : Nat) (k : Carton)
    (h : k.bingo = false) :
    (comprobarCarton c ns ci k).1.rowFlags = (comprobarFilas c ci ns 0 k.filas k.rowFlags).1 := by
  unfold comprobarCarton
  simp only [h, Bool.false_eq_true, if_false]
  split <;> rfl

theorem comprobarCarton_linea (c : String) (ns : List Nat) (ci : Nat) (k : Carton)
    (h : k.bingo = false) (fi : Nat) :
    Evento.linea c ci fi ∈ (comprobarCarton c ns ci k).2 ↔
      Evento.linea c ci fi ∈ (comprobarFilas c ci ns 0 k.filas k.rowFlags).2.2 := by
  unfold comprobarCarton
  simp only [h, Bool.false_eq_true, if_false]
  split <;> simp

theorem comprobarCarton_mono (c : String) (ns : List Nat) (ci : Nat) (k : Carton) (fi : Nat)
    (h : leerFlag k.rowFlags fi = true) :
    leerFlag (comprobarCarton c ns ci k).1.rowFlags fi = true := by
  cases hb : k.bingo with
  | true => rw [comprobarCarton_ganado c ns ci k hb]; exact h
  | false =>
    rw [comprobarCarton_rowFlags c ns ci k hb]
    exact comprobarFilas_mono c ci ns k.filas 0 k.rowFlags fi h

theorem comprobarCarton_linea_emitida (c : String) (ns : List Nat) (ci : Nat) (k : Carton)
    (fi : Nat) (h : Evento.linea c ci fi ∈ (comprobarCarton c ns ci k).2) :
    leerFlag k.rowFlags fi = false ∧ leerFlag (comprobarCarton c ns ci k).1.rowFlags fi = true ∧
      ∃ fila, k.filas[fi]? = some fila ∧ ∀ n ∈ fila, n ∈ ns := by
  cases hb : k.bingo with
  | true =>
    rw [comprobarCarton_ganado c ns ci k hb] at h
    simp at h
  | false =>
    rw [comprobarCarton_linea c ns ci k hb] at h
    obtain ⟨i, fila, he, hf, hc, hl⟩ := comprobarFilas_eventos c ci ns k.filas 0 k.rowFlags _ h
    have hi : fi = i := by
      simp only [Evento.linea.injEq, true_and] at he
      omega
    subst hi
    rw [Nat.zero_add] at hl
    refine ⟨hl, ?_, fila, hf, (filaCompleta_iff ns fila).mp hc⟩
    rw [comprobarCarton_rowFlags c ns ci k hb]
    exact comprobarFilas_avisada c ci ns k.filas 0 k.rowFlags fi h

theorem comprobarCarton_flag_origen (c : String) (ns : List Nat) (ci : Nat) (k : Carton)
    (fi : Nat) (h : leerFlag (comprobarCarton c ns ci k).1.rowFlags fi = true) :
    leerFlag k.rowFlags fi = true ∨ Evento.linea c ci fi ∈ (comprobarCarton c ns ci k).2 := by
  cases hb : k.bingo with
  | true =>
    rw [comprobarCarton_ganado c ns ci k hb] at h
    exact Or.inl h
  | false =>
    rw [comprobarCarton_rowFlags c ns ci k hb] at h
    rw [comprobarCarton_linea c ns ci k hb]
    exact comprobarFilas_flag_origen c ci ns k.filas 0 k.rowFlags fi h

theorem comprobarCarton_bingo_mono (c : String) (ns : List Nat) (ci : Nat) (k : Carton)
    (h : k.bingo = true) : (comprobarCarton c ns ci k).1.bingo = true := by
  rw [comprobarCarton_ganado c ns ci k h]
  exact h

theorem comprobarCarton_bingo_emitido (c : String) (ns : List Nat) (ci : Nat) (k : Carton)
    (h : Evento.bingo c ci ∈ (comprobarCarton c ns ci k).2) :
    k.bingo = false ∧ (comprobarCarton c ns ci k).1.bingo = true ∧
      (k.filas.length = FILAS_POR_CARTON → ∀ fi, fi < FILAS_POR_CARTON →
        leerFlag (comprobarCarton c ns ci k).1.rowFlags fi = true) := by
  cases hb : k.bingo with
  | true =>
    rw [comprobarCarton_ganado c ns ci k hb] at h
    simp at h
  | false =>
    have hrf := comprobarCarton_rowFlags c ns ci k hb
    have hcu := (comprobarFilas_cuenta c ci ns k.filas 0 k.rowFlags).2
    unfold comprobarCarton at h ⊢
    simp only [hb, Bool.false_eq_true, if_false, and_true] at h ⊢
    by_cases hn : (comprobarFilas c ci ns 0 k.filas k.rowFlags).2.1 = FILAS_POR_CARTON
    · simp only [hn, if_true, true_and]
      intro hlen fi hfi
      have := hcu (by rw [hn, hlen]) fi (by rw [hlen]; exact hfi)
      simpa using this
    · simp only [hn, if_false] at h
      obtain ⟨i, fila, he, _⟩ := comprobarFilas_eventos c ci ns k.filas 0 k.rowFlags _ h
      simp at he

theorem comprobarCarton_origen (c : String) (ns : List Nat) (ci : Nat) (k : Carton)
    (e : Evento) (h : e ∈ (comprobarCarton c ns ci k).2) :
    e.socketId = c ∧ e.cartonIndex = ci := by
  cases hb : k.bingo with
  | true =>
    rw [comprobarCarton_ganado c ns ci k hb] at h
    simp at h
  | false =>
    unfold comprobarCarton at h
    simp only [hb, Bool.false_eq_true, if_false, and_true] at h
    have hfilas : ∀ e1 ∈ (comprobarFilas c ci ns 0 k.filas k.rowFlags).2.2,
        e1.socketId = c ∧ e1.cartonIndex = ci := by
      intro e1 h1
      obtain ⟨i, fila, he, _⟩ := comprobarFilas_eventos c ci ns k.filas 0 k.rowFlags _ h1
      rw [he]
      exact ⟨rfl, rfl⟩
    split at h
    · rcases List.mem_append.mp h with h1 | h1
      · exact hfilas e h1
      · rw [List.mem_singleton.mp h1]
        exact ⟨rfl, rfl⟩
    · exact hfilas e h

/-! ## The win scan: the registry -/

theorem comprobarCartones_get (c : String) (ns : List Nat) (cartones : List Carton) :
    ∀ (ci0 i : Nat), (comprobarCartones c ns ci0 cartones).1[i]? =
      (cartones[i]?).map (fun k => (comprobarCarton c ns (ci0 + i) k).1) := by
  induction cartones with
  | nil => intro ci0 i; simp [comprobarCartones]
  | cons k resto ih =>
    intro ci0 i
    cases i with
    | zero => simp [comprobarCartones]
    | succ i =>
      simp only [comprobarCartones, List.getElem?_cons_succ, ih (ci0 + 1) i]
      rw [show ci0 + 1 + i = ci0 + (i + 1) by omega]

theorem comprobarCartones_mem (c : String) (ns : List Nat) (cartones : List Carton) :
    ∀ (ci0 : Nat) (e : Evento), e ∈ (comprobarCartones c ns ci0 cartones).2 ↔
      ∃ i k, cartones[i]? = some k ∧ e ∈ (comprobarCarton c ns (ci0 + i) k).2 := by
  induction cartones with
  | nil => intro ci0 e; simp [comprobarCartones]
  | cons k resto ih =>
    intro ci0 e
    simp only [comprobarCartones, List.mem_append, ih (ci0 + 1) e]
    constructor
    · rintro (h | ⟨i, k1, h1, h2⟩)
      · exact ⟨0, k, by simp, h⟩
      · refine ⟨i + 1, k1, by simpa using h1, ?_⟩
        rw [show ci0 + (i + 1) = ci0 + 1 + i by omega]
        exact h2
    · rintro ⟨i, k1, h1, h2⟩
      cases i with
      | zero =>
        left
        simp only [List.getElem?_cons_zero, Option.some.injEq] at h1
        rw [h1]
        exact h2
      | succ i =>
        right
        refine ⟨i, k1, by simpa using h1, ?_⟩
        rw [show ci0 + 1 + i = ci0 + (i + 1) by omega]
        exact h2

theorem comprobarClientes_claves (ns : List Nat) (cl : Clientes) :
    (comprobarClientes ns cl).1.map Prod.fst = cl.map Prod.fst := by
  induction cl with
  | nil => rfl
  | cons p resto ih =>
    obtain ⟨id, d⟩ := p
    simp only [comprobarClientes, List.map_cons, ih]

theorem comprobarClientes_find (ns : List Nat) (c : String) (cl : Clientes) :
    (comprobarClientes ns cl).1.find? (fun p => p.1 == c) =
      (cl.find? (fun p => p.1 == c)).map
        (fun p => (p.1, { p.2 with cartones := (comprobarCartones p.1 ns 0 p.2.cartones).1 })) := by
  induction cl with
  | nil => rfl
  | cons p resto ih =>
    obtain ⟨id, d⟩ := p
    simp only [comprobarClientes, List.find?_cons]
    cases hid : id == c with
    | true => simp
    | false => simpa using ih

theorem comprobarClientes_mem (ns : List Nat) (cl : Clientes) (e : Evento) :
    e ∈ (comprobarClientes ns cl).2 ↔
      ∃ p ∈ cl, e ∈ (comprobarCartones p.1 ns 0 p.2.cartones).2 := by
  induction cl with
  | nil => simp [comprobarClientes]
  | cons p resto ih =>
    obtain ⟨id, d⟩ := p
    simp only [comprobarClientes, List.mem_append, ih, List.mem_cons, exists_eq_or_imp]

theorem find_clave_unica (cl : Clientes) (h : ClavesUnicas cl) (p : String × Cliente)
    (hp : p ∈ cl) : cl.find? (fun q => q.1 == p.1) = some p := by
  induction cl with
  | nil => simp at hp
  | cons q resto ih =>
    unfold ClavesUnicas at h
    simp only [List.map_cons, List.nodup_cons, List.mem_map, not_exists, not_and] at h
    rcases List.mem_cons.mp hp with hq | hq
    · subst hq
      simp
    · have hne : q.1 ≠ p.1 := fun heq => h.1 p hq heq.symm
      have hb : (q.1 == p.1) = false := by simpa using hne
      rw [List.find?_cons, hb]
      exact ih h.2 hq

theorem cartonDe_comprobarClientes (ns : List Nat) (cl : Clientes) (c : String) (ci : Nat)
    (k : Carton) (h : cartonDe cl c ci = some k) :
    cartonDe (comprobarClientes ns cl).1 c ci = some (comprobarCarton c ns ci k).1 := by
  unfold cartonDe at h ⊢
  rw [comprobarClientes_find]
  cases hf : cl.find? (fun p => p.1 == c) with
  | none => simp [hf] at h
  | some p =>
    have hc : p.1 = c := by simpa using List.find?_some hf
    simp only [hf] at h
    simp only [Option.map_some', comprobarCartones_get, h, Nat.zero_add, hc]

theorem eventos_comprobarClientes (ns : List Nat) (cl : Clientes) (c : String) (ci : Nat)
    (k : Carton) (hu : ClavesUnicas cl) (h : cartonDe cl c ci = some k) (e : Evento)
    (hc : e.socketId = c) (hci : e.cartonIndex = ci) :
    e ∈ (comprobarClientes ns cl).2 ↔ e ∈ (comprobarCarton c ns ci k).2 := by
  rw [comprobarClientes_mem]
  unfold cartonDe at h
  constructor
  · rintro ⟨p, hp, he⟩
    obtain ⟨i, k1, hk1, he1⟩ := (comprobarCartones_mem p.1 ns p.2.cartones 0 e).mp he
    have ho := comprobarCarton_origen p.1 ns (0 + i) k1 e he1
    have hpc : p.1 = c := ho.1.symm.trans hc
    have hi : i = ci := by
      have := ho.2.symm.trans hci
      omega
    have hf := find_clave_unica cl hu p hp
    rw [hpc] at hf
    rw [hf] at h
    simp only at h
    subst hi
    rw [hk1] at h
    simp only [Option.some.injEq] at h
    rw [← h, ← hpc]
    simpa using he1
  · intro he
    cases hf : cl.find? (fun p => p.1 == c) with
    | none => simp [hf] at h
    | some p =>
      have hpc : p.1 = c := by simpa using List.find?_some hf
      simp only [hf] at h
      refine ⟨p, List.mem_of_find?_eq_some hf, ?_⟩
      rw [comprobarCartones_mem]
      refine ⟨ci, k, h, ?_⟩
      rw [hpc, Nat.zero_add]
      exact he

/-! ## Runs: what a step does to the registry -/

theorem sacar_clientes (rnd : Nat) (s : Estado) :
    (sacarNumeroDelBombo rnd s).2.clientes = s.clientes := by
  unfold sacarNumeroDelBombo
  split <;> rfl

theorem terminarJuego_clientes (razon : String) (s : Estado) :
    (terminarJuego razon s).1.clientes = s.clientes := by
  rw [terminarJuego_estado]

theorem iniciar_clientes (h : Timeout) (s : Estado) :
    (iniciarJuegoAutomatico h s).2.1.clientes = s.clientes := by
  unfold iniciarJuegoAutomatico
  split <;> rfl

theorem procesarEventos_clientes (evs : List Evento) (s : Estado) :
    (procesarEventos evs s).1.clientes = s.clientes := by
  induction evs with
  | nil => rfl
  | cons e evs ih =>
    cases e with
    | linea c ci fi => simpa [procesarEventos] using ih
    | bingo c ci => simp [procesarEventos, terminarJuego_clientes]

theorem paso_sin_escaneo (op : Op) (s : Estado) (h : escaneoDe op s = none) :
    (ejecutar op s).clientes = s.clientes := by
  cases op with
  | sacar rnd => exact sacar_clientes rnd s
  | iniciar t => exact iniciar_clientes t s
  | terminar razon => exact terminarJuego_clientes razon s
  | comprobar => simp [escaneoDe] at h
  | tick rnd =>
    simp only [escaneoDe] at h
    simp only [ejecutar, tick]
    rcases hd : sacarNumeroDelBombo rnd s with ⟨_ | numero, s1⟩
    · have h1 := sacar_clientes rnd s
      rw [hd] at h1
      simp only [terminarJuego_clientes]
      exact h1
    · rw [hd] at h
      simp at h

theorem paso_con_escaneo (op : Op) (s s1 : Estado) (h : escaneoDe op s = some s1) :
    s1.clientes = s.clientes ∧
      (ejecutar op s).clientes = (comprobarGanadoresGlobal s1).2.clientes := by
  cases op with
  | sacar rnd => simp [escaneoDe] at h
  | iniciar t => simp [escaneoDe] at h
  | terminar razon => simp [escaneoDe] at h
  | comprobar =>
    simp only [escaneoDe, Option.some.injEq] at h
    subst h
    exact ⟨rfl, rfl⟩
  | tick rnd =>
    simp only [escaneoDe] at h
    simp only [ejecutar, tick]
    rcases hd : sacarNumeroDelBombo rnd s with ⟨_ | numero, s2⟩
    · rw [hd] at h
      simp at h
    · rw [hd] at h
      simp only [Option.some.injEq] at h
      subst h
      have h1 := sacar_clientes rnd s
      rw [hd] at h1
      exact ⟨h1, procesarEventos_clientes _ _⟩

theorem escaneo_paso (c : String) (ci : Nat) (k : Carton) (op : Op) (s s1 : Estado)
    (hu : ClavesUnicas s.clientes) (hk : cartonDe s.clientes c ci = some k)
    (h : escaneoDe op s = some s1) :
    ClavesUnicas (ejecutar op s).clientes ∧
    cartonDe (ejecutar op s).clientes c ci = some (comprobarCarton c s1.numerosSalidos ci k).1 ∧
    cartonDe (comprobarGanadoresGlobal s1).2.clientes c ci =
      some (comprobarCarton c s1.numerosSalidos ci k).1 ∧
    ∀ e : Evento, e.socketId = c → e.cartonIndex = ci →
      (e ∈ eventosDe s1 ↔ e ∈ (comprobarCarton c s1.numerosSalidos ci k).2) := by
  obtain ⟨h1, h2⟩ := paso_con_escaneo op s s1 h
  have hk1 : cartonDe s1.clientes c ci = some k := by rw [h1]; exact hk
  have hu1 : ClavesUnicas s1.clientes := by rw [h1]; exact hu
  have hg : cartonDe (comprobarGanadoresGlobal s1).2.clientes c ci =
      some (comprobarCarton c s1.numerosSalidos ci k).1 :=
    cartonDe_comprobarClientes s1.numerosSalidos s1.clientes c ci k hk1
  refine ⟨?_, ?_, hg, ?_⟩
  · rw [h2]
    unfold ClavesUnicas
    show ((comprobarClientes s1.numerosSalidos s1.clientes).1.map Prod.fst).Nodup
    rw [comprobarClientes_claves]
    exact hu1
  · rw [h2]
    exact hg
  · intro e hc hci
    exact eventos_comprobarClientes s1.numerosSalidos s1.clientes c ci k hu1 hk1 e hc hci

theorem escaneos_cons_none (op : Op) (ops : List Op) (s : Estado)
    (h : escaneoDe op s = none) :
    escaneos (op :: ops) s = escaneos ops (ejecutar op s) := by
  simp [escaneos, h]

theorem escaneos_cons_some (op : Op) (ops : List Op) (s s1 : Estado)
    (h : escaneoDe op s = some s1) :
    escaneos (op :: ops) s = s1 :: escaneos ops (ejecutar op s) := by
  simp [escaneos, h]

theorem linea_a_lo_mas_una (c : String) (ci fi : Nat) (ops : List Op) :
    ∀ (s : Estado) (k : Carton), ClavesUnicas s.clientes → cartonDe s.clientes c ci = some k →
      (escaneos ops s).countP (fun st => decide (Evento.linea c ci fi ∈ eventosDe st)) ≤
          (if leerFlag k.rowFlags fi = true then 0 else 1) ∧
      ∀ st ∈ escaneos ops s, Evento.linea c ci fi ∈ eventosDe st →
        ∃ fila, k.filas[fi]? = some fila ∧ ∀ n ∈ fila, n ∈ st.numerosSalidos := by
  induction ops with
  | nil =>
    intro s k _ _
    simp [escaneos]
  | cons op ops ih =>
    intro s k hu hk
    cases hesc : escaneoDe op s with
    | none =>
      rw [escaneos_cons_none op ops s hesc]
      have hcl := paso_sin_escaneo op s hesc
      exact ih (ejecutar op s) k (by rw [hcl]; exact hu) (by rw [hcl]; exact hk)
    | some s1 =>
      rw [escaneos_cons_some op ops s s1 hesc]
      obtain ⟨hu2, hk2, _, hev⟩ := escaneo_paso c ci k op s s1 hu hk hesc
      obtain ⟨ih1, ih2⟩ := ih (ejecutar op s) _ hu2 hk2
      have hlin := hev (Evento.linea c ci fi) rfl rfl
      constructor
      · rw [List.countP_cons]
        by_cases hem : Evento.linea c ci fi ∈ eventosDe s1
        · obtain ⟨hf0, hf1, _⟩ :=
            comprobarCarton_linea_emitida c s1.numerosSalidos ci k fi (hlin.mp hem)
          rw [if_pos hf1] at ih1
          simp only [hem, decide_True, if_true]
          rw [hf0]
          simp only [Bool.false_eq_true, if_false]
          omega
        · simp only [hem, decide_False, Bool.false_eq_true, if_false, Nat.add_zero]
          by_cases hf : leerFlag k.rowFlags fi = true
          · have := comprobarCarton_mono c s1.numerosSalidos ci k fi hf
            rw [if_pos this] at ih1
            omega
          · rw [if_neg hf]
            exact ih1.trans (by split <;> omega)
      · intro st hst hem
        rcases List.mem_cons.mp hst with hst1 | hst1
        · subst hst1
          exact (comprobarCarton_linea_emitida c st.numerosSalidos ci k fi (hlin.mp hem)).2.2
        · have := ih2 st hst1 hem
          rw [comprobarCarton_filas] at this
          exact this

theorem bingo_a_lo_mas_uno (c : String) (ci : Nat) (ops : List Op) :
    ∀ (s : Estado) (k : Carton), ClavesUnicas s.clientes → cartonDe s.clientes c ci = some k →
      (escaneos ops s).countP (fun st => decide (Evento.bingo c ci ∈ eventosDe st)) ≤
          (if k.bingo = true then 0 else 1) := by
  induction ops with
  | nil =>
    intro s k _ _
    simp [escaneos]
  | cons op ops ih =>
    intro s k hu hk
    cases hesc : escaneoDe op s with
    | none =>
      rw [escaneos_cons_none op ops s hesc]
      have hcl := paso_sin_escaneo op s hesc
      exact ih (ejecutar op s) k (by rw [hcl]; exact hu) (by rw [hcl]; exact hk)
    | some s1 =>
      rw [escaneos_cons_some op ops s s1 hesc]
      obtain ⟨hu2, hk2, _, hev⟩ := escaneo_paso c ci k op s s1 hu hk hesc
      have ih1 := ih (ejecutar op s) _ hu2 hk2
      have hbin := hev (Evento.bingo c ci) rfl rfl
      rw [List.countP_cons]
      by_cases hem : Evento.bingo c ci ∈ eventosDe s1
      · obtain ⟨hb0, hb1, _⟩ :=
          comprobarCarton_bingo_emitido c s1.numerosSalidos ci k (hbin.mp hem)
        rw [if_pos hb1] at ih1
        simp only [hem, decide_True, if_true]
        rw [hb0]
        simp only [Bool.false_eq_true, if_false]
        omega
      · simp only [hem, decide_False, Bool.false_eq_true, if_false, Nat.add_zero]
        by_cases hb : k.bingo = true
        · have := comprobarCarton_bingo_mono c s1.numerosSalidos ci k hb
          rw [if_pos this] at ih1
          omega
        · rw [if_neg hb]
          exact ih1.trans (by split <;> omega)

theorem bingo_tras_lineas (c : String) (ci : Nat) (ops : List Op) :
    ∀ (s : Estado) (k : Carton), ClavesUnicas s.clientes → cartonDe s.clientes c ci = some k →
      k.filas.length = FILAS_POR_CARTON →
      ∀ (pre : List Estado) (st : Estado) (post : List Estado),
        escaneos ops s = pre ++ st :: post → Evento.bingo c ci ∈ eventosDe st →
        ∀ fi, fi < FILAS_POR_CARTON →
          (∃ k1, cartonDe (comprobarGanadoresGlobal st).2.clientes c ci = some k1 ∧
            leerFlag k1.rowFlags fi = true) ∧
          (leerFlag k.rowFlags fi = true ∨
            ∃ st1 ∈ pre ++ [st], Evento.linea c ci fi ∈ eventosDe st1) := by
  induction ops with
  | nil =>
    intro s k _ _ _ pre st post h
    simp [escaneos] at h
  | cons op ops ih =>
    intro s k hu hk hlen pre st post h hem fi hfi
    cases hesc : escaneoDe op s with
    | none =>
      rw [escaneos_cons_none op ops s hesc] at h
      have hcl := paso_sin_escaneo op s hesc
      exact ih (ejecutar op s) k (by rw [hcl]; exact hu) (by rw [hcl]; exact hk) hlen
        pre st post h hem fi hfi
    | some s1 =>
      rw [escaneos_cons_some op ops s s1 hesc] at h
      obtain ⟨hu2, hk2, hk3, hev⟩ := escaneo_paso c ci k op s s1 hu hk hesc
      have hlin := hev (Evento.linea c ci fi) rfl rfl
      cases pre with
      | nil =>
        simp only [List.nil_append, List.cons.injEq] at h
        obtain ⟨h1, _⟩ := h
        subst h1
        have hbin := (hev (Evento.bingo c ci) rfl rfl).mp hem
        obtain ⟨_, _, hall⟩ := comprobarCarton_bingo_emitido c s1.numerosSalidos ci k hbin
        have hflag := hall hlen fi hfi
        refine ⟨⟨_, hk3, hflag⟩, ?_⟩
        rcases comprobarCarton_flag_origen c s1.numerosSalidos ci k fi hflag with h0 | h0
        · exact Or.inl h0
        · exact Or.inr ⟨s1, by simp, hlin.mpr h0⟩
      | cons p pre1 =>
        simp only [List.cons_append, List.cons.injEq] at h
        obtain ⟨h1, h2⟩ := h
        subst h1
        have hlen1 : (comprobarCarton c s1.numerosSalidos ci k).1.filas.length =
            FILAS_POR_CARTON := by
          rw [comprobarCarton_filas]
          exact hlen
        obtain ⟨ha, hb⟩ := ih (ejecutar op s) _ hu2 hk2 hlen1 pre1 st post h2 hem fi hfi
        refine ⟨ha, ?_⟩
        rcases hb with hb | ⟨st1, hst1, hl1⟩
        · rcases comprobarCarton_flag_origen c s1.numerosSalidos ci k fi hb with h0 | h0
          · exact Or.inl h0
          · exact Or.inr ⟨s1, by simp, hlin.mpr h0⟩
        · exact Or.inr ⟨st1, List.mem_cons_of_mem _ hst1, hl1⟩

/-! ## Claims on line and bingo events over a run -/

/-- C5: for a ticket of the registry (in particular one `generarCarton` has just
returned) and every run of draws, starts, stops, win scans and ticks after it, the
`linea` event of a given (client, ticket, row) is returned by at most one scan of
the run, and a scan that returns it runs in a state whose `numerosSalidos` holds
every number of that row. -/
theorem C5_linea_una_vez (s : Estado) (c : String) (ci fi : Nat) (k : Carton)
    (ops : List Op) (hu : ClavesUnicas s.clientes)
    (hk : cartonDe s.clientes c ci = some k) :
    (escaneos ops s).countP (fun st => decide (Evento.linea c ci fi ∈ eventosDe st)) ≤ 1 ∧
    ∀ st ∈ escaneos ops s, Evento.linea c ci fi ∈ eventosDe st →
      ∃ fila, k.filas[fi]? = some fila ∧ ∀ n ∈ fila, n ∈ st.numerosSalidos := by
  obtain ⟨h1, h2⟩ := linea_a_lo_mas_una c ci fi ops s k hu hk
  exact ⟨h1.trans (by split <;> omega), h2⟩

/-- Witness of C5: the first row of the fresh ticket over the sample run. -/
theorem C5_linea_una_vez_witness :
    ClavesUnicas estadoNuevo.clientes ∧
    cartonDe estadoNuevo.clientes "abcdefgh" 0 = some cartonNuevo ∧
    ((escaneos opsEjemplo estadoNuevo).countP
        (fun st => decide (Evento.linea "abcdefgh" 0 0 ∈ eventosDe st)) ≤ 1 ∧
      ∀ st ∈ escaneos opsEjemplo estadoNuevo, Evento.linea "abcdefgh" 0 0 ∈ eventosDe st →
        ∃ fila, cartonNuevo.filas[0]? = some fila ∧ ∀ n ∈ fila, n ∈ st.numerosSalidos) :=
  ⟨by unfold ClavesUnicas; decide, by decide,
   C5_linea_una_vez estadoNuevo "abcdefgh" 0 0 cartonNuevo opsEjemplo
     (by unfold ClavesUnicas; decide) (by decide)⟩

/-- C6: for a ticket `generarCarton` has returned and every run of draws, starts,
stops, win scans and ticks after it, the `bingo` event of the ticket is returned by
at most one scan of the run; and at a scan that returns it, every row of the ticket
has its flag set once the scan is done and has had its `linea` event returned by
that scan or an earlier one of the run. -/
theorem C6_bingo_una_vez (rnd : Nat → Nat) (s : Estado) (c : String) (ci : Nat) (k : Carton)
    (ops : List Op) (hu : ClavesUnicas s.clientes) (hgen : generarCarton rnd = some k)
    (hk : cartonDe s.clientes c ci = some k) :
    (escaneos ops s).countP (fun st => decide (Evento.bingo c ci ∈ eventosDe st)) ≤ 1 ∧
    ∀ (pre : List Estado) (st : Estado) (post : List Estado),
      escaneos ops s = pre ++ st :: post → Evento.bingo c ci ∈ eventosDe st →
      ∀ fi, fi < k.filas.length →
        (∃ k1, cartonDe (comprobarGanadoresGlobal st).2.clientes c ci = some k1 ∧
          leerFlag k1.rowFlags fi = true) ∧
        (∃ st1 ∈ pre ++ [st], Evento.linea c ci fi ∈ eventosDe st1) := by
  obtain ⟨k0, hk0, hlen, _, _, _, hrf, _⟩ := generarCarton_spec rnd
  rw [hgen] at hk0
  simp only [Option.some.injEq] at hk0
  subst hk0
  refine ⟨(bingo_a_lo_mas_uno c ci ops s k hu hk).trans (by split <;> omega), ?_⟩
  intro pre st post h hem fi hfi
  rw [hlen] at hfi
  obtain ⟨ha, hb⟩ := bingo_tras_lineas c ci ops s k hu hk hlen pre st post h hem fi hfi
  refine ⟨ha, ?_⟩
  rcases hb with hb | hb
  · rw [hrf] at hb
    have h3 : fi = 0 ∨ fi = 1 ∨ fi = 2 := by omega
    rcases h3 with h3 | h3 | h3 <;> (rw [h3] at hb; exact absurd hb (by decide))
  · exact hb

/-- Witness of C6: the fresh ticket, returned by `generarCarton` when every random
index is 0, over the sample run. -/
theorem C6_bingo_una_vez_witness :
    ClavesUnicas estadoNuevo.clientes ∧
    generarCarton (fun _ => 0) = some cartonNuevo ∧
    cartonDe estadoNuevo.clientes "abcdefgh" 0 = some cartonNuevo ∧
    ((escaneos opsEjemplo estadoNuevo).countP
        (fun st => decide (Evento.bingo "abcdefgh" 0 ∈ eventosDe st)) ≤ 1 ∧
      ∀ (pre : List Estado) (st : Estado) (post : List Estado),
        escaneos opsEjemplo estadoNuevo = pre ++ st :: post →
        Evento.bingo "abcdefgh" 0 ∈ eventosDe st →
        ∀ fi, fi < cartonNuevo.filas.length →
          (∃ k1, cartonDe (comprobarGanadoresGlobal st).2.clientes "abcdefgh" 0 = some k1 ∧
            leerFlag k1.rowFlags fi = true) ∧
          (∃ st1 ∈ pre ++ [st], Evento.linea "abcdefgh" 0 fi ∈ eventosDe st1)) :=
  ⟨by unfold ClavesUnicas; decide, by decide, by decide,
   C6_bingo_una_vez (fun _ => 0) estadoNuevo "abcdefgh" 0 cartonNuevo opsEjemplo
     (by unfold ClavesUnicas; decide) (by decide) (by decide)⟩

/-- In the sample run the `linea` event of each row and the `bingo` event of the
fresh ticket are returned by exactly one scan: the bounds of C5 and C6 are met. -/
theorem opsEjemplo_emite :
    (escaneos opsEjemplo estadoNuevo).countP
      (fun st => decide (Evento.linea "abcdefgh" 0 0 ∈ eventosDe st)) = 1 ∧
    (escaneos opsEjemplo estadoNuevo).countP
      (fun st => decide (Evento.linea "abcdefgh" 0 2 ∈ eventosDe st)) = 1 ∧
    (escaneos opsEjemplo estadoNuevo).countP
      (fun st => decide (Evento.bingo "abcdefgh" 0 ∈ eventosDe st)) = 1 := by
  decide

/-! ## The win scan: when a bingo is announced -/

theorem comprobarFilas_cuenta_eq (c : String) (ci : Nat) (ns : List Nat)
    (filas : List (List Nat)) :
    ∀ (fi0 : Nat) (rf : List Bool),
      (comprobarFilas c ci ns fi0 filas rf).2.1 = filas.countP (filaCompleta ns) := by
  induction filas with
  | nil => intro fi0 rf; rfl
  | cons fila resto ih =>
    intro fi0 rf
    rw [comprobarFilas_cons, List.countP_cons]
    simp only [ih]
    omega

theorem comprobarCarton_bingo_iff (c : String) (ns : List Nat) (ci : Nat) (k : Carton)
    (hb : k.bingo = false) :
    (Evento.bingo c ci ∈ (comprobarCarton c ns ci k).2 ↔
      k.filas.countP (filaCompleta ns) = FILAS_POR_CARTON) ∧
    ((comprobarCarton c ns ci k).1.bingo = true ↔
      k.filas.countP (filaCompleta ns) = FILAS_POR_CARTON) := by
  have hcu := comprobarFilas_cuenta_eq c ci ns k.filas 0 k.rowFlags
  have hno : Evento.bingo c ci ∉ (comprobarFilas c ci ns 0 k.filas k.rowFlags).2.2 := by
    intro h
    obtain ⟨i, fila, he, _⟩ := comprobarFilas_eventos c ci ns k.filas 0 k.rowFlags _ h
    simp at he
  unfold comprobarCarton
  simp only [hb, Bool.false_eq_true, if_false, and_true, hcu]
  by_cases hn : k.filas.countP (filaCompleta ns) = FILAS_POR_CARTON
  · simp [hn]
  · simp only [hn, if_false, iff_false]
    exact ⟨hno, by simp [hb]⟩

theorem countP_eq_length_iff (ns : List Nat) (filas : List (List Nat)) :
    filas.countP (filaCompleta ns) = filas.length ↔
      ∀ fila ∈ filas, ∀ n ∈ fila, n ∈ ns := by
  rw [List.countP_eq_length]
  constructor
  · intro h fila hf
    exact (filaCompleta_iff ns fila).mp (h fila hf)
  · intro h fila hf
    exact (filaCompleta_iff ns fila).mpr (h fila hf)

/-- C11 as the code has it: for a registry with unique ids, any drawn history and
a ticket whose bingo flag is false when the scan starts, the scan returns the
`bingo` event of the ticket, and sets its bingo flag, if and only if the number of
rows of the ticket that are complete against `numerosSalidos` is `FILAS_POR_CARTON`;
on a ticket of `FILAS_POR_CARTON` rows that is when every number of every row has
been drawn, and then every row flag is true once the scan is done. -/
theorem C11_bingo_por_filas_completas (s : Estado) (c : String) (ci : Nat) (k : Carton)
    (hu : ClavesUnicas s.clientes) (hk : cartonDe s.clientes c ci = some k)
    (hb : k.bingo = false) :
    (Evento.bingo c ci ∈ eventosDe s ↔
      k.filas.countP (filaCompleta s.numerosSalidos) = FILAS_POR_CARTON) ∧
    (∃ k1, cartonDe (comprobarGanadoresGlobal s).2.clientes c ci = some k1 ∧
      (k1.bingo = true ↔
        k.filas.countP (filaCompleta s.numerosSalidos) = FILAS_POR_CARTON) ∧
      (k.filas.length = FILAS_POR_CARTON → Evento.bingo c ci ∈ eventosDe s →
        ∀ fi, fi < FILAS_POR_CARTON → leerFlag k1.rowFlags fi = true)) ∧
    (k.filas.length = FILAS_POR_CARTON →
      (k.filas.countP (filaCompleta s.numerosSalidos) = FILAS_POR_CARTON ↔
        ∀ fila ∈ k.filas, ∀ n ∈ fila, n ∈ s.numerosSalidos)) := by
  have hev := eventos_comprobarClientes s.numerosSalidos s.clientes c ci k hu hk
    (Evento.bingo c ci) rfl rfl
  have hk1 := cartonDe_comprobarClientes s.numerosSalidos s.clientes c ci k hk
  obtain ⟨h1, h2⟩ := comprobarCarton_bingo_iff c s.numerosSalidos ci k hb
  refine ⟨hev.trans h1, ⟨_, hk1, h2, ?_⟩, ?_⟩
  · intro hlen hem fi hfi
    exact (comprobarCarton_bingo_emitido c s.numerosSalidos ci k (hev.mp hem)).2.2 hlen fi hfi
  · intro hlen
    rw [← hlen]
    exact countP_eq_length_iff s.numerosSalidos k.filas

/-- Witness of C11: the ticket of the first client in the sample game, one draw
from its bingo. -/
theorem C11_bingo_por_filas_completas_witness :
    ClavesUnicas estadoEjemplo.clientes ∧
    cartonDe estadoEjemplo.clientes "abcdefgh" 0 = some cartonEjemplo ∧
    cartonEjemplo.bingo = false ∧
    ((Evento.bingo "abcdefgh" 0 ∈ eventosDe estadoEjemplo ↔
      cartonEjemplo.filas.countP (filaCompleta estadoEjemplo.numerosSalidos)
        = FILAS_POR_CARTON) ∧
    (∃ k1, cartonDe (comprobarGanadoresGlobal estadoEjemplo).2.clientes "abcdefgh" 0 = some k1 ∧
      (k1.bingo = true ↔
        cartonEjemplo.filas.countP (filaCompleta estadoEjemplo.numerosSalidos)
          = FILAS_POR_CARTON) ∧
      (cartonEjemplo.filas.length = FILAS_POR_CARTON →
        Evento.bingo "abcdefgh" 0 ∈ eventosDe estadoEjemplo →
        ∀ fi, fi < FILAS_POR_CARTON → leerFlag k1.rowFlags fi = true)) ∧
    (cartonEjemplo.filas.length = FILAS_POR_CARTON →
      (cartonEjemplo.filas.countP (filaCompleta estadoEjemplo.numerosSalidos)
          = FILAS_POR_CARTON ↔
        ∀ fila ∈ cartonEjemplo.filas, ∀ n ∈ fila, n ∈ estadoEjemplo.numerosSalidos))) :=
  ⟨by unfold ClavesUnicas; decide, by decide, rfl,
   C11_bingo_por_filas_completas estadoEjemplo "abcdefgh" 0 cartonEjemplo
     (by unfold ClavesUnicas; decide) (by decide) rfl⟩

set_option maxRecDepth 100000 in
/-- Counterexample to C11 as stated: in the second game of the sample run the scan
that follows the draw of 27 leaves every row flag of the second client's ticket
true (two of them set in the first game), yet it neither sets the bingo flag nor
returns the `bingo` event, since only one row is complete in this game. -/
theorem C11_counterexample :
    cartonDe estadoSegundoJuego.clientes "zyxwvuts" 0 =
      some { filas := [[0, 1, 2, 3, 4, 5, 6], [7, 8, 9, 10, 11, 12, 13],
                       [21, 22, 23, 24, 25, 26, 27]],
             rowFlags := [true, true, false], bingo := false } ∧
    cartonDe (comprobarGanadoresGlobal estadoSegundoJuego).2.clientes "zyxwvuts" 0 =
      some { filas := [[0, 1, 2, 3, 4, 5, 6], [7, 8, 9, 10, 11, 12, 13],
                       [21, 22, 23, 24, 25, 26, 27]],
             rowFlags := [true, true, true], bingo := false } ∧
    Evento.bingo "zyxwvuts" 0 ∉ eventosDe estadoSegundoJuego := by
  decide

/-! ## The win scan reads the history as a set -/

theorem filaCompleta_congr (ns1 ns2 : List Nat) (h : ∀ n, n ∈ ns1 ↔ n ∈ ns2)
    (fila : List Nat) : filaCompleta ns1 fila = filaCompleta ns2 fila := by
  rw [Bool.eq_iff_iff, filaCompleta_iff, filaCompleta_iff]
  exact ⟨fun hf n hn => (h n).mp (hf n hn), fun hf n hn => (h n).mpr (hf n hn)⟩

theorem comprobarFilas_congr (c : String) (ci : Nat) (ns1 ns2 : List Nat)
    (h : ∀ n, n ∈ ns1 ↔ n ∈ ns2) (filas : List (List Nat)) :
    ∀ (fi0 : Nat) (rf : List Bool),
      comprobarFilas c ci ns1 fi0 filas rf = comprobarFilas c ci ns2 fi0 filas rf := by
  induction filas with
  | nil => intro fi0 rf; rfl
  | cons fila resto ih =>
    intro fi0 rf
    rw [comprobarFilas_cons, comprobarFilas_cons, filaCompleta_congr ns1 ns2 h fila]
    simp only [ih]

theorem comprobarCarton_congr (c : String) (ns1 ns2 : List Nat)
    (h : ∀ n, n ∈ ns1 ↔ n ∈ ns2) (ci : Nat) (k : Carton) :
    comprobarCarton c ns1 ci k = comprobarCarton c ns2 ci k := by
  unfold comprobarCarton
  rw [comprobarFilas_congr c ci ns1 ns2 h]

theorem comprobarCartones_congr (c : String) (ns1 ns2 : List Nat)
    (h : ∀ n, n ∈ ns1 ↔ n ∈ ns2) (cartones : List Carton) :
    ∀ ci0 : Nat, comprobarCartones c ns1 ci0 cartones = comprobarCartones c ns2 ci0 cartones := by
  induction cartones with
  | nil => intro ci0; rfl
  | cons k resto ih =>
    intro ci0
    simp only [comprobarCartones, ih, comprobarCarton_congr c ns1 ns2 h]

theorem comprobarClientes_congr (ns1 ns2 : List Nat) (h : ∀ n, n ∈ ns1 ↔ n ∈ ns2)
    (cl : Clientes) : comprobarClientes ns1 cl = comprobarClientes ns2 cl := by
  induction cl with
  | nil => rfl
  | cons p resto ih =>
    obtain ⟨id, d⟩ := p
    simp only [comprobarClientes, ih, comprobarCartones_congr id ns1 ns2 h]

/-- C13: for every state and any two drawn histories that are permutations of
each other, `comprobarGanadoresGlobal` returns the same event list and leaves the
same registry, ticket flags included. -/
theorem C13_escaneo_sin_orden (s : Estado) (ns1 ns2 : List Nat) (h : ns1.Perm ns2) :
    (comprobarGanadoresGlobal { s with numerosSalidos := ns1 }).1 =
      (comprobarGanadoresGlobal { s with numerosSalidos := ns2 }).1 ∧
    (comprobarGanadoresGlobal { s with numerosSalidos := ns1 }).2.clientes =
      (comprobarGanadoresGlobal { s with numerosSalidos := ns2 }).2.clientes := by
  have hc := comprobarClientes_congr ns1 ns2 (fun n => h.mem_iff) s.clientes
  simp only [comprobarGanadoresGlobal, hc, and_self]

/-- Witness of C13: the one-row ticket scanned with the histories `[2, 5, 7]` and
`[7, 2, 5]`. -/
theorem C13_escaneo_sin_orden_witness :
    (comprobarGanadoresGlobal { estadoUnaFila with numerosSalidos := [2, 5, 7] }).1 =
      (comprobarGanadoresGlobal { estadoUnaFila with numerosSalidos := [7, 2, 5] }).1 ∧
    (comprobarGanadoresGlobal { estadoUnaFila with numerosSalidos := [2, 5, 7] }).2.clientes =
      (comprobarGanadoresGlobal { estadoUnaFila with numerosSalidos := [7, 2, 5] }).2.clientes :=
  C13_escaneo_sin_orden estadoUnaFila [2, 5, 7] [7, 2, 5] (by decide)

/-! ## The server: what an input does to the session state -/

theorem particion_explicita (s : Estado) (h : Particion s) :
    s.bombo.Nodup ∧ s.numerosSalidos.Nodup ∧ List.Disjoint s.bombo s.numerosSalidos ∧
    ∀ n : Nat, (n ∈ s.bombo ∨ n ∈ s.numerosSalidos) ↔ n < 100 := by
  unfold Particion at h
  have hnd : (s.numerosSalidos ++ s.bombo).Nodup := h.nodup_iff.mpr (List.nodup_range 100)
  rw [List.nodup_append] at hnd
  refine ⟨hnd.2.1, hnd.1, hnd.2.2.symm, ?_⟩
  intro n
  have hm := h.mem_iff (a := n)
  rw [List.mem_append, List.mem_range] at hm
  rw [← hm]
  exact or_comm

theorem procesarEventos_estado (evs : List Evento) (s : Estado) :
    (procesarEventos evs s).1 =
      if evs.any Evento.esBingo = true then { s with intervalo := none, juegoEnCurso := false }
      else s := by
  induction evs with
  | nil => rfl
  | cons e evs ih =>
    cases e with
    | linea c ci fi => simpa [procesarEventos, Evento.esBingo] using ih
    | bingo c ci => simp [procesarEventos, Evento.esBingo, terminarJuego_estado]

theorem sacar_sesion (rnd : Nat) (s : Estado) :
    (sacarNumeroDelBombo rnd s).2.intervalo = s.intervalo ∧
      (sacarNumeroDelBombo rnd s).2.juegoEnCurso = s.juegoEnCurso := by
  unfold sacarNumeroDelBombo
  split <;> exact ⟨rfl, rfl⟩

theorem tick_estado (rnd : Nat) (s : Estado) :
    ∃ s2 : Estado,
      s2.bombo = (sacarNumeroDelBombo rnd s).2.bombo ∧
      s2.numerosSalidos = (sacarNumeroDelBombo rnd s).2.numerosSalidos ∧
      s2.intervalo = s.intervalo ∧ s2.juegoEnCurso = s.juegoEnCurso ∧
      (tick rnd s).estado =
        if tickTermina (tick rnd s) = true then
          { s2 with intervalo := none, juegoEnCurso := false }
        else s2 := by
  obtain ⟨hi, hj⟩ := sacar_sesion rnd s
  unfold tick tickTermina
  rcases hd : sacarNumeroDelBombo rnd s with ⟨_ | numero, s1⟩
  · rw [hd] at hi hj
    exact ⟨s1, rfl, rfl, hi, hj, by simp [terminarJuego_estado]⟩
  · rw [hd] at hi hj
    refine ⟨(comprobarGanadoresGlobal s1).2, rfl, rfl, hi, hj, ?_⟩
    simp only [procesarEventos_estado]

theorem alRequestCartones_sesion (id : String) (cantidad : Option Int) (rnd : Nat → Nat)
    (s : Estado) :
    (alRequestCartones id cantidad rnd s).estado.bombo = s.bombo ∧
    (alRequestCartones id cantidad rnd s).estado.numerosSalidos = s.numerosSalidos ∧
    (alRequestCartones id cantidad rnd s).estado.intervalo = s.intervalo ∧
    (alRequestCartones id cantidad rnd s).estado.juegoEnCurso = s.juegoEnCurso := by
  unfold alRequestCartones
  split
  · exact ⟨rfl, rfl, rfl, rfl⟩
  · split <;> exact ⟨rfl, rfl, rfl, rfl⟩

/-- The invariant behind C14: whether a start has been requested so far decides
between the partition and the two empty arrays, and a running game has been
started. -/
theorem paso_particion (e : Entrada) (sv : Servidor) (b : Bool)
    (h1 : if b = true then Particion sv.estado
          else sv.estado.bombo = [] ∧ sv.estado.numerosSalidos = [])
    (h2 : sv.estado.juegoEnCurso = true → b = true) :
    (if (b || e.esInicio) = true then Particion (Servidor.paso e sv).estado
      else (Servidor.paso e sv).estado.bombo = [] ∧
        (Servidor.paso e sv).estado.numerosSalidos = []) ∧
    ((Servidor.paso e sv).estado.juegoEnCurso = true → (b || e.esInicio) = true) := by
  have quieto : ∀ s2 : Estado, s2.bombo = sv.estado.bombo →
      s2.numerosSalidos = sv.estado.numerosSalidos →
      (s2.juegoEnCurso = true → sv.estado.juegoEnCurso = true) →
      (if (b || false) = true then Particion s2
        else s2.bombo = [] ∧ s2.numerosSalidos = []) ∧
      (s2.juegoEnCurso = true → (b || false) = true) := by
    intro s2 hb hn hj
    simp only [Bool.or_false]
    refine ⟨?_, fun h => h2 (hj h)⟩
    unfold Particion at h1 ⊢
    rw [hb, hn]
    exact h1
  cases e with
  | connection id => exact quieto _ rfl rfl (fun h => h)
  | requestCartones id cantidad rnd =>
    obtain ⟨hb, hn, _, hj⟩ := alRequestCartones_sesion id cantidad rnd sv.estado
    exact quieto _ hb hn (fun h => by rw [← hj]; exact h)
  | estado id => exact quieto _ rfl rfl (fun h => h)
  | disconnect id => exact quieto _ rfl rfl (fun h => h)
  | terminar razon =>
    have hp : (Servidor.paso (Entrada.terminar razon) sv).estado =
        { sv.estado with intervalo := none, juegoEnCurso := false } :=
      terminarJuego_estado razon sv.estado
    rw [hp]
    exact quieto _ rfl rfl (fun h => by simp at h)
  | iniciarJuego id t =>
    simp only [Entrada.esInicio, Bool.or_true, if_true, Servidor.paso, alIniciarJuego,
      implies_true, and_true]
    cases hj : sv.estado.juegoEnCurso with
    | true =>
      have hb := h2 hj
      rw [hb] at h1
      simpa [iniciarJuegoAutomatico, hj] using h1
    | false =>
      simp [iniciarJuegoAutomatico, hj, resetBombo, Particion]
  | tick t rnd =>
    by_cases hmem : t ∈ sv.activos
    · have hp : (Servidor.paso (Entrada.tick t rnd) sv).estado = (tick rnd sv.estado).estado := by
        simp [Servidor.paso, hmem]
      rw [hp]
      obtain ⟨s2, hb2, hn2, _, hj2, hs⟩ := tick_estado rnd sv.estado
      have hsac : (sacarNumeroDelBombo rnd sv.estado).2.bombo = sv.estado.bombo ∧
          (sacarNumeroDelBombo rnd sv.estado).2.numerosSalidos = sv.estado.numerosSalidos ∨
          b = true := by
        cases hbb : b with
        | true => exact Or.inr rfl
        | false =>
          left
          rw [hbb] at h1
          simp only [Bool.false_eq_true, if_false] at h1
          simp [sacarNumeroDelBombo, h1.1]
      have hbombo : (tick rnd sv.estado).estado.bombo = s2.bombo := by
        rw [hs]; split <;> rfl
      have hns : (tick rnd sv.estado).estado.numerosSalidos = s2.numerosSalidos := by
        rw [hs]; split <;> rfl
      have hjc : (tick rnd sv.estado).estado.juegoEnCurso = true →
          sv.estado.juegoEnCurso = true := by
        rw [hs]
        split
        · intro h; simp at h
        · intro h; rw [← hj2]; exact h
      simp only [Entrada.esInicio, Bool.or_false]
      refine ⟨?_, fun h => h2 (hjc h)⟩
      cases hbb : b with
      | true =>
        rw [hbb] at h1
        simp only [if_true] at h1 ⊢
        unfold Particion at h1 ⊢
        rw [hbombo, hns, hb2, hn2]
        exact (sacar_perm rnd sv.estado).trans h1
      | false =>
        rw [hbb] at h1
        simp only [Bool.false_eq_true, if_false] at h1 ⊢
        rcases hsac with ⟨ha, hc⟩ | hc
        · rw [hbombo, hns, hb2, hn2, ha, hc]
          exact h1
        · rw [hbb] at hc
          exact absurd hc (by decide)
    · have hp : (Servidor.paso (Entrada.tick t rnd) sv).estado = sv.estado := by
        simp [Servidor.paso, hmem]
      rw [hp]
      exact quieto _ rfl rfl (fun h => h)

theorem correr_particion (entradas : List Entrada) :
    ∀ (sv : Servidor) (b : Bool),
      (if b = true then Particion sv.estado
        else sv.estado.bombo = [] ∧ sv.estado.numerosSalidos = []) →
      (sv.estado.juegoEnCurso = true → b = true) →
      (if (b || huboInicio entradas) = true then
          Particion (Servidor.correr entradas sv).estado
        else (Servidor.correr entradas sv).estado.bombo = [] ∧
          (Servidor.correr entradas sv).estado.numerosSalidos = []) := by
  induction entradas with
  | nil =>
    intro sv b h1 _
    simpa [huboInicio, Servidor.correr] using h1
  | cons e es ih =>
    intro sv b h1 h2
    obtain ⟨g1, g2⟩ := paso_particion e sv b h1 h2
    have := ih (Servidor.paso e sv) (b || e.esInicio) g1 g2
    simpa [huboInicio, Servidor.correr, Bool.or_assoc] using this

/-- C14 as the code has it: in every state the server reaches from its initial
state by connections, ticket requests, start requests, state queries, ticks, stops
and disconnections, `bombo` and `numerosSalidos` have no duplicate and are disjoint;
once a start has been requested they hold each number of `0 .. 99` in exactly one
of them, and until then both are empty. -/
theorem C14_particion_desde_inicio (entradas : List Entrada) :
    (Servidor.correr entradas servidorInicial).estado.bombo.Nodup ∧
    (Servidor.correr entradas servidorInicial).estado.numerosSalidos.Nodup ∧
    List.Disjoint (Servidor.correr entradas servidorInicial).estado.bombo
      (Servidor.correr entradas servidorInicial).estado.numerosSalidos ∧
    (huboInicio entradas = true →
      ∀ n : Nat, (n ∈ (Servidor.correr entradas servidorInicial).estado.bombo ∨
        n ∈ (Servidor.correr entradas servidorInicial).estado.numerosSalidos) ↔ n < 100) ∧
    (huboInicio entradas = false →
      (Servidor.correr entradas servidorInicial).estado.bombo = [] ∧
      (Servidor.correr entradas servidorInicial).estado.numerosSalidos = []) := by
  have h := correr_particion entradas servidorInicial false
    (by simp [servidorInicial, estadoInicial]) (by simp [servidorInicial, estadoInicial])
  simp only [Bool.false_or] at h
  cases hb : huboInicio entradas with
  | true =>
    rw [hb] at h
    simp only [if_true] at h
    obtain ⟨h1, h2, h3, h4⟩ := particion_explicita _ h
    exact ⟨h1, h2, h3, fun _ => h4, fun hf => absurd hf (by decide)⟩
  | false =>
    rw [hb] at h
    simp only [Bool.false_eq_true, if_false] at h
    refine ⟨?_, ?_, ?_, fun hf => absurd hf (by decide), fun _ => h⟩
    · rw [h.1]; exact List.nodup_nil
    · rw [h.2]; exact List.nodup_nil
    · rw [h.1]; exact List.disjoint_nil_left _

/-- Counterexample to C14 as stated: in the initial state, and still after a
connection and a ticket request, the number 0 of the range is neither in `bombo`
nor in `numerosSalidos`. -/
theorem C14_counterexample :
    ¬ (0 ∈ servidorInicial.estado.bombo ∨ 0 ∈ servidorInicial.estado.numerosSalidos) ∧
    ¬ (0 ∈ (Servidor.correr [Entrada.connection "abcdefgh",
          Entrada.requestCartones "abcdefgh" none (fun _ => 0)] servidorInicial).estado.bombo ∨
      0 ∈ (Servidor.correr [Entrada.connection "abcdefgh",
          Entrada.requestCartones "abcdefgh" none (fun _ => 0)]
            servidorInicial).estado.numerosSalidos) := by
  decide
/-! ## The server: the timer handle and the running flag -/

theorem limpiarIntervalo_toList (i : Option Timeout) : limpiarIntervalo i i.toList = [] := by
  cases i with
  | none => rfl
  | some h => simp [limpiarIntervalo, Option.toList]

theorem paso_intervalo (e : Entrada) (sv : Servidor)
    (h1 : sv.estado.intervalo.isSome = sv.estado.juegoEnCurso)
    (h2 : sv.activos = sv.estado.intervalo.toList) :
    (Servidor.paso e sv).estado.intervalo.isSome = (Servidor.paso e sv).estado.juegoEnCurso ∧
    (Servidor.paso e sv).activos = (Servidor.paso e sv).estado.intervalo.toList := by
  cases e with
  | connection id => exact ⟨h1, h2⟩
  | requestCartones id cantidad rnd =>
    obtain ⟨_, _, hi, hj⟩ := alRequestCartones_sesion id cantidad rnd sv.estado
    simp only [Servidor.paso, hi, hj]
    exact ⟨h1, h2⟩
  | estado id => exact ⟨h1, h2⟩
  | disconnect id => exact ⟨h1, h2⟩
  | terminar razon =>
    simp only [Servidor.paso, terminarJuego_estado, Option.isSome_none, Option.toList]
    rw [h2]
    exact ⟨trivial, limpiarIntervalo_toList _⟩
  | iniciarJuego id t =>
    simp only [Servidor.paso, alIniciarJuego]
    cases hj : sv.estado.juegoEnCurso with
    | true =>
      simp only [iniciarJuegoAutomatico, hj, if_true, Bool.false_eq_true, if_false]
      rw [hj] at h1
      exact ⟨h1, h2⟩
    | false =>
      rw [hj] at h1
      have hnone : sv.estado.intervalo = none := by
        cases hi : sv.estado.intervalo with
        | none => rfl
        | some x => rw [hi] at h1; simp at h1
      rw [hnone] at h2
      simp [iniciarJuegoAutomatico, hj, h2, Option.toList]
  | tick t rnd =>
    by_cases hmem : t ∈ sv.activos
    · obtain ⟨s2, _, _, hi2, hj2, hs⟩ := tick_estado rnd sv.estado
      simp only [Servidor.paso, hmem, if_true]
      cases ht : tickTermina (tick rnd sv.estado) with
      | true =>
        rw [ht] at hs
        simp only [if_true] at hs
        simp only [hs, if_true, Option.isSome_none, Option.toList]
        rw [h2]
        exact ⟨trivial, limpiarIntervalo_toList _⟩
      | false =>
        rw [ht] at hs
        simp only [Bool.false_eq_true, if_false] at hs
        simp only [hs, Bool.false_eq_true, if_false, hi2, hj2]
        exact ⟨h1, h2⟩
    · simp only [Servidor.paso, hmem, if_false]
      exact ⟨h1, h2⟩

theorem correr_intervalo (entradas : List Entrada) :
    ∀ sv : Servidor, sv.estado.intervalo.isSome = sv.estado.juegoEnCurso →
      sv.activos = sv.estado.intervalo.toList →
      (Servidor.correr entradas sv).estado.intervalo.isSome =
        (Servidor.correr entradas sv).estado.juegoEnCurso ∧
      (Servidor.correr entradas sv).activos =
        (Servidor.correr entradas sv).estado.intervalo.toList := by
  induction entradas with
  | nil => intro sv h1 h2; exact ⟨h1, h2⟩
  | cons e es ih =>
    intro sv h1 h2
    obtain ⟨g1, g2⟩ := paso_intervalo e sv h1 h2
    exact ih (Servidor.paso e sv) g1 g2

theorem ejecutar_intervalo (op : Op) (s : Estado)
    (h : s.intervalo.isSome = s.juegoEnCurso) :
    (ejecutar op s).intervalo.isSome = (ejecutar op s).juegoEnCurso := by
  cases op with
  | sacar rnd =>
    obtain ⟨hi, hj⟩ := sacar_sesion rnd s
    simp only [ejecutar, hi, hj]
    exact h
  | iniciar t =>
    simp only [ejecutar]
    cases hj : s.juegoEnCurso with
    | true =>
      rw [hj] at h
      simpa [iniciarJuegoAutomatico, hj] using h
    | false => simp [iniciarJuegoAutomatico, hj]
  | terminar razon => simp [ejecutar, terminarJuego_estado]
  | comprobar => exact h
  | tick rnd =>
    obtain ⟨s2, _, _, hi2, hj2, hs⟩ := tick_estado rnd s
    simp only [ejecutar, hs]
    split
    · rfl
    · rw [hi2, hj2]
      exact h

theorem ejecutarTodos_intervalo (ops : List Op) :
    ∀ s : Estado, s.intervalo.isSome = s.juegoEnCurso →
      (ejecutarTodos ops s).intervalo.isSome = (ejecutarTodos ops s).juegoEnCurso := by
  induction ops with
  | nil => intro s h; exact h
  | cons op ops ih =>
    intro s h
    exact ih (ejecutar op s) (ejecutar_intervalo op s h)

/-- C15: in every state reached from the initial state by calls of
`iniciarJuegoAutomatico`, runs of the timer callback and calls of `terminarJuego`
(draws and scans on their own included), and in every state the server reaches
from its initial state by any inputs, `intervalo` holds a handle if and only if
`juegoEnCurso` is true. On the server the active intervals of the platform are
exactly that handle, so in an idle session no interval is active and no tick runs.
After `terminarJuego`, from any state, the handle is `null` and `juegoEnCurso` is
false. -/
theorem C15_intervalo_sii_en_curso (ops : List Op) (entradas : List Entrada) :
    ((∃ h, (ejecutarTodos ops estadoInicial).intervalo = some h) ↔
      (ejecutarTodos ops estadoInicial).juegoEnCurso = true) ∧
    ((∃ h, (Servidor.correr entradas servidorInicial).estado.intervalo = some h) ↔
      (Servidor.correr entradas servidorInicial).estado.juegoEnCurso = true) ∧
    (Servidor.correr entradas servidorInicial).activos =
      (Servidor.correr entradas servidorInicial).estado.intervalo.toList ∧
    ((Servidor.correr entradas servidorInicial).estado.juegoEnCurso = false →
      (Servidor.correr entradas servidorInicial).activos = [] ∧
      ∀ (h : Timeout) (rnd : Nat),
        Servidor.paso (Entrada.tick h rnd) (Servidor.correr entradas servidorInicial) =
          Servidor.correr entradas servidorInicial) ∧
    ∀ (razon : String) (s : Estado),
      (terminarJuego razon s).1.intervalo = none ∧
      (terminarJuego razon s).1.juegoEnCurso = false := by
  obtain ⟨h1, h2⟩ := correr_intervalo entradas servidorInicial rfl rfl
  have h0 := ejecutarTodos_intervalo ops estadoInicial rfl
  refine ⟨?_, ?_, h2, ?_, ?_⟩
  · rw [← h0, Option.isSome_iff_exists]
  · rw [← h1, Option.isSome_iff_exists]
  · intro hj
    rw [hj] at h1
    have hnone : (Servidor.correr entradas servidorInicial).estado.intervalo = none := by
      cases hi : (Servidor.correr entradas servidorInicial).estado.intervalo with
      | none => rfl
      | some x => rw [hi] at h1; simp at h1
    have hact : (Servidor.correr entradas servidorInicial).activos = [] := by
      rw [h2, hnone]; rfl
    refine ⟨hact, ?_⟩
    intro h rnd
    simp [Servidor.paso, hact]
  · intro razon s
    rw [terminarJuego_estado]
    exact ⟨rfl, rfl⟩

/-! ## The socket handlers -/

theorem buscar_actualizar_mismo (id : String) (f : Cliente → Cliente) (cl : Clientes) :
    buscarCliente (actualizarCliente id f cl) id = (buscarCliente cl id).map f := by
  induction cl with
  | nil => rfl
  | cons p resto ih =>
    unfold buscarCliente at ih ⊢
    simp only [actualizarCliente]
    cases hp : p.1 == id with
    | true => simp [List.find?_cons, hp]
    | false => simpa [List.find?_cons, hp] using ih

theorem buscar_actualizar_otro (id otro : String) (hne : otro ≠ id) (f : Cliente → Cliente)
    (cl : Clientes) :
    buscarCliente (actualizarCliente id f cl) otro = buscarCliente cl otro := by
  induction cl with
  | nil => rfl
  | cons p resto ih =>
    unfold buscarCliente at ih ⊢
    simp only [actualizarCliente]
    cases hp : p.1 == id with
    | true =>
      have hpid : p.1 = id := by simpa using hp
      have hno : (p.1 == otro) = false := by
        simp only [beq_eq_false_iff_ne, ne_eq]
        rw [hpid]
        exact fun h => hne h.symm
      simp [List.find?_cons, hno]
    | false =>
      cases hq : p.1 == otro with
      | true => simp [List.find?_cons, hq]
      | false => simpa [List.find?_cons, hq] using ih

theorem claves_actualizar (id : String) (f : Cliente → Cliente) (cl : Clientes) :
    (actualizarCliente id f cl).map Prod.fst = cl.map Prod.fst := by
  induction cl with
  | nil => rfl
  | cons p resto ih =>
    simp only [actualizarCliente]
    split
    · rfl
    · simp only [List.map_cons, ih]

theorem find_isSome_iff_clave (id : String) (cl : Clientes) :
    (cl.find? (fun p => p.1 == id)).isSome = true ↔ id ∈ cl.map Prod.fst := by
  simp only [List.find?_isSome, List.mem_map, beq_iff_eq]

theorem codigoUTF16_length (c : Char) : (codigoUTF16 c).length = unidadesUTF16 c := by
  unfold codigoUTF16 unidadesUTF16
  split <;> rfl

theorem aUTF16_slice (cs : List Char) :
    ∀ n : Nat, cortaPar cs n = false → aUTF16 (sliceUTF16 cs n) = (aUTF16 cs).take n := by
  induction cs with
  | nil => intro n _; simp [sliceUTF16, aUTF16]
  | cons c cs ih =>
    intro n h
    by_cases hle : unidadesUTF16 c ≤ n
    · simp only [cortaPar, hle, if_true] at h
      have h1 := ih (n - unidadesUTF16 c) h
      have hl := codigoUTF16_length c
      have ht : (codigoUTF16 c).take n = codigoUTF16 c :=
        List.take_of_length_le (by rw [hl]; exact hle)
      have e1 : aUTF16 (sliceUTF16 (c :: cs) n) =
          codigoUTF16 c ++ aUTF16 (sliceUTF16 cs (n - unidadesUTF16 c)) := by
        simp [sliceUTF16, hle, aUTF16]
      have e2 : aUTF16 (c :: cs) = codigoUTF16 c ++ aUTF16 cs := by simp [aUTF16]
      rw [e1, e2, h1, List.take_append_eq_append_take, ht, hl]
    · simp only [cortaPar, hle, if_false, decide_eq_false_iff_not, Nat.not_lt,
        Nat.le_zero] at h
      subst h
      have e1 : sliceUTF16 (c :: cs) 0 = [] := by simp only [sliceUTF16, hle, if_false]
      rw [e1]
      simp [aUTF16]

theorem sliceUTF16_bmp (cs : List Char) (hb : ∀ c ∈ cs, c.toNat < 65536) :
    ∀ n : Nat, sliceUTF16 cs n = cs.take n ∧ cortaPar cs n = false := by
  induction cs with
  | nil => intro n; simp [sliceUTF16, cortaPar]
  | cons c cs ih =>
    intro n
    have hc : unidadesUTF16 c = 1 := by
      simp [unidadesUTF16, hb c (List.mem_cons_self _ _)]
    have ih1 := ih (fun d hd => hb d (List.mem_cons_of_mem _ hd))
    cases n with
    | zero => simp [sliceUTF16, cortaPar, hc]
    | succ m =>
      have := ih1 m
      simp [sliceUTF16, cortaPar, hc, this.1, this.2]

theorem alConectar_registro (id : String) (s : Estado) :
    (alConectar id s).fallo = none ∧
    buscarCliente (alConectar id s).estado.clientes id =
      some { cartones := [], nombre := nombreDe id } ∧
    (∀ otro, otro ≠ id →
      buscarCliente (alConectar id s).estado.clientes otro = buscarCliente s.clientes otro) ∧
    (alConectar id s).estado.clientes.map Prod.fst =
      (if id ∈ s.clientes.map Prod.fst then s.clientes.map Prod.fst
       else s.clientes.map Prod.fst ++ [id]) := by
  have hiff := find_isSome_iff_clave id s.clientes
  by_cases hmem : id ∈ s.clientes.map Prod.fst
  · have hs : (s.clientes.find? (fun p => p.1 == id)).isSome = true := hiff.mpr hmem
    have hb : (buscarCliente s.clientes id).isSome = true := by
      unfold buscarCliente
      simpa using hs
    obtain ⟨c0, hc0⟩ := Option.isSome_iff_exists.mp hb
    refine ⟨rfl, ?_, ?_, ?_⟩
    · simp only [alConectar, fijarCliente, hs, if_true, buscar_actualizar_mismo, hc0,
        Option.map_some']
    · intro otro hne
      simp only [alConectar, fijarCliente, hs, if_true]
      exact buscar_actualizar_otro id otro hne _ _
    · simp only [alConectar, fijarCliente, hs, if_true, claves_actualizar, hmem]
  · have hs : (s.clientes.find? (fun p => p.1 == id)).isSome = false := by
      cases h : (s.clientes.find? (fun p => p.1 == id)).isSome with
      | false => rfl
      | true => exact absurd (hiff.mp h) hmem
    have hnone : s.clientes.find? (fun p => p.1 == id) = none := by
      simpa using hs
    refine ⟨rfl, ?_, ?_, ?_⟩
    · simp [alConectar, fijarCliente, hs, buscarCliente, List.find?_append, hnone]
    · intro otro hne
      have hno : (id == otro) = false := by
        simp only [beq_eq_false_iff_ne, ne_eq]
        exact fun h => hne h.symm
      simp [alConectar, fijarCliente, hs, buscarCliente, List.find?_append, hno]
    · simp [alConectar, fijarCliente, hs, hmem]

/-- C16 as the code has it: for an id whose fifth UTF-16 code unit does not open
a surrogate pair (every ASCII id, as the transport makes them), a connection never
fails; afterwards the registry maps the id to a record with an empty ticket list
and the name `Jugador-` followed by `slice(0, 5)` of the id, that is: the code
units of the name are those of `Jugador-` followed by the first 5 code units of the
id, the first 5 characters when the id is in the basic plane. The records of the
other ids are as before. A new id is added at the end of the registry; an id that
is already in the registry keeps its place and has its record replaced by the
fresh one. -/
theorem C16_conexion (id : String) (s : Estado) (hid : cortaPar id.data 5 = false) :
    (alConectar id s).fallo = none ∧
    (∃ nombre,
      buscarCliente (alConectar id s).estado.clientes id =
        some { cartones := [], nombre := nombre } ∧
      aUTF16 nombre.data = aUTF16 "Jugador-".data ++ (aUTF16 id.data).take 5 ∧
      ((∀ c ∈ id.data, c.toNat < 65536) →
        nombre = "Jugador-" ++ String.mk (id.data.take 5))) ∧
    (∀ otro, otro ≠ id →
      buscarCliente (alConectar id s).estado.clientes otro = buscarCliente s.clientes otro) ∧
    (alConectar id s).estado.clientes.map Prod.fst =
      (if id ∈ s.clientes.map Prod.fst then s.clientes.map Prod.fst
       else s.clientes.map Prod.fst ++ [id]) := by
  obtain ⟨h1, h2, h3, h4⟩ := alConectar_registro id s
  refine ⟨h1, ⟨nombreDe id, h2, ?_, ?_⟩, h3, h4⟩
  · have hs := aUTF16_slice id.data 5 hid
    simp only [nombreDe, String.data_append, aUTF16, List.flatMap_append] at hs ⊢
    rw [hs]
  · intro hb
    simp only [nombreDe, (sliceUTF16_bmp id.data hb 5).1]

/-- Witness of C16: a first connection whose id holds a character outside the
basic plane, within the first 5 code units. -/
theorem C16_conexion_witness :
    cortaPar "a😀bcdefg".data 5 = false ∧
    ((alConectar "a😀bcdefg" estadoEjemplo).fallo = none ∧
    (∃ nombre,
      buscarCliente (alConectar "a😀bcdefg" estadoEjemplo).estado.clientes "a😀bcdefg" =
        some { cartones := [], nombre := nombre } ∧
      aUTF16 nombre.data = aUTF16 "Jugador-".data ++ (aUTF16 "a😀bcdefg".data).take 5 ∧
      ((∀ c ∈ "a😀bcdefg".data, c.toNat < 65536) →
        nombre = "Jugador-" ++ String.mk ("a😀bcdefg".data.take 5))) ∧
    (∀ otro, otro ≠ "a😀bcdefg" →
      buscarCliente (alConectar "a😀bcdefg" estadoEjemplo).estado.clientes otro =
        buscarCliente estadoEjemplo.clientes otro) ∧
    (alConectar "a😀bcdefg" estadoEjemplo).estado.clientes.map Prod.fst =
      (if "a😀bcdefg" ∈ estadoEjemplo.clientes.map Prod.fst then
        estadoEjemplo.clientes.map Prod.fst
       else estadoEjemplo.clientes.map Prod.fst ++ ["a😀bcdefg"])) :=
  ⟨by decide, C16_conexion "a😀bcdefg" estadoEjemplo (by decide)⟩

/-- The names of two sample ids: an ASCII id keeps its first 5 characters; in an
id with a character outside the basic plane that character counts for two. -/
theorem nombreDe_ejemplos :
    nombreDe "abcdefgh" = "Jugador-abcde" ∧ nombreDe "a😀bcdefg" = "Jugador-a😀bc" ∧
    cortaPar "abcd😀fg".data 5 = true := by
  decide

/-- Counterexample to C16 as stated: a connection with the id of a client that
holds a ticket does not fail, and it replaces the record: the ticket is gone. -/
theorem C16_counterexample :
    buscarCliente estadoEjemplo.clientes "abcdefgh" =
      some { cartones := [cartonEjemplo], nombre := "Jugador-abcde" } ∧
    (alConectar "abcdefgh" estadoEjemplo).fallo = none ∧
    buscarCliente (alConectar "abcdefgh" estadoEjemplo).estado.clientes "abcdefgh" =
      some { cartones := [], nombre := "Jugador-abcde" } := by
  decide

/-- C17 as the code has it: a ticket request for an id that is not in the
registry throws a `TypeError` (line 174 reads a property of `undefined`) before it
changes anything: the state is as before and nothing is emitted, for every
requested count and every random source. -/
theorem C17_request_sin_cliente (id : String) (cantidad : Option Int) (rnd : Nat → Nat)
    (s : Estado) (h : buscarCliente s.clientes id = none) :
    alRequestCartones id cantidad rnd s =
      { estado := s, mensajes := [], fallo := some Fallo.typeError } := by
  simp [alRequestCartones, h]

/-- Witness of C17: a request of the second client after it has disconnected. -/
theorem C17_request_sin_cliente_witness :
    buscarCliente (alDisconnect "zyxwvuts" estadoEjemplo).estado.clientes "zyxwvuts" = none ∧
    alRequestCartones "zyxwvuts" (some 2) (fun _ => 0)
        (alDisconnect "zyxwvuts" estadoEjemplo).estado =
      { estado := (alDisconnect "zyxwvuts" estadoEjemplo).estado, mensajes := [],
        fallo := some Fallo.typeError } :=
  ⟨by decide,
   C17_request_sin_cliente "zyxwvuts" (some 2) (fun _ => 0)
     (alDisconnect "zyxwvuts" estadoEjemplo).estado (by decide)⟩

/-- Counterexample to C17 as stated: the request of a disconnected client ends
with an error, it does not return normally. -/
theorem C17_counterexample :
    buscarCliente (alDisconnect "zyxwvuts" estadoEjemplo).estado.clientes "zyxwvuts" = none ∧
    (alRequestCartones "zyxwvuts" (some 2) (fun _ => 0)
        (alDisconnect "zyxwvuts" estadoEjemplo).estado).fallo ≠ none := by
  decide
/-! ## The order of the events of a scan -/

theorem comprobarFilas_orden (c : String) (ci : Nat) (ns : List Nat)
    (filas : List (List Nat)) :
    ∀ (fi0 : Nat) (rf : List Bool),
      (comprobarFilas c ci ns fi0 filas rf).2.2.Pairwise Evento.antesEnCarton := by
  induction filas with
  | nil => intro fi0 rf; simp [comprobarFilas]
  | cons fila resto ih =>
    intro fi0 rf
    rw [comprobarFilas_cons, List.pairwise_append]
    refine ⟨?_, ih (fi0 + 1) _, ?_⟩
    · split
      · exact List.pairwise_singleton _ _
      · exact List.Pairwise.nil
    · intro a ha b hb
      obtain ⟨i, f, hbe, _⟩ := comprobarFilas_eventos c ci ns resto (fi0 + 1) _ b hb
      split at ha
      · rw [List.mem_singleton.mp ha, hbe]
        show fi0 < fi0 + 1 + i
        omega
      · simp at ha

theorem comprobarCarton_orden (c : String) (ns : List Nat) (ci : Nat) (k : Carton) :
    (comprobarCarton c ns ci k).2.Pairwise Evento.antesEnCarton := by
  unfold comprobarCarton
  split
  · exact List.Pairwise.nil
  · simp only []
    split
    · rw [List.pairwise_append]
      refine ⟨comprobarFilas_orden c ci ns k.filas 0 k.rowFlags, List.pairwise_singleton _ _, ?_⟩
      intro a ha b hb
      obtain ⟨i, f, hae, _⟩ := comprobarFilas_eventos c ci ns k.filas 0 k.rowFlags a ha
      rw [List.mem_singleton.mp hb, hae]
      trivial
    · exact comprobarFilas_orden c ci ns k.filas 0 k.rowFlags

theorem comprobarCartones_orden (c : String) (ns : List Nat) (cartones : List Carton) :
    ∀ ci0 : Nat, (comprobarCartones c ns ci0 cartones).2.Pairwise Evento.antesEnCliente := by
  induction cartones with
  | nil => intro ci0; simp [comprobarCartones]
  | cons k resto ih =>
    intro ci0
    simp only [comprobarCartones]
    rw [List.pairwise_append]
    refine ⟨?_, ih (ci0 + 1), ?_⟩
    · refine List.Pairwise.imp_of_mem ?_ (comprobarCarton_orden c ns ci0 k)
      intro a b ha hb hab
      right
      exact ⟨(comprobarCarton_origen c ns ci0 k a ha).2.trans
        (comprobarCarton_origen c ns ci0 k b hb).2.symm, hab⟩
    · intro a ha b hb
      obtain ⟨i, k1, _, hb1⟩ := (comprobarCartones_mem c ns resto (ci0 + 1) b).mp hb
      left
      rw [(comprobarCarton_origen c ns ci0 k a ha).2,
        (comprobarCarton_origen c ns (ci0 + 1 + i) k1 b hb1).2]
      omega

theorem comprobarCartones_socket (c : String) (ns : List Nat) (cartones : List Carton)
    (ci0 : Nat) (e : Evento) (h : e ∈ (comprobarCartones c ns ci0 cartones).2) :
    e.socketId = c := by
  obtain ⟨i, k1, _, h1⟩ := (comprobarCartones_mem c ns cartones ci0 e).mp h
  exact (comprobarCarton_origen c ns (ci0 + i) k1 e h1).1

theorem comprobarClientes_socket (ns : List Nat) (cl : Clientes) (e : Evento)
    (h : e ∈ (comprobarClientes ns cl).2) : e.socketId ∈ cl.map Prod.fst := by
  obtain ⟨p, hp, he⟩ := (comprobarClientes_mem ns cl e).mp h
  rw [comprobarCartones_socket p.1 ns p.2.cartones 0 e he]
  exact List.mem_map_of_mem Prod.fst hp

theorem comprobarClientes_orden (ns : List Nat) (cl : Clientes) (hu : ClavesUnicas cl) :
    (comprobarClientes ns cl).2.Pairwise (Evento.antes cl) := by
  induction cl with
  | nil => simp [comprobarClientes]
  | cons p resto ih =>
    obtain ⟨id, d⟩ := p
    have hu1 : id ∉ resto.map Prod.fst ∧ ClavesUnicas resto := by
      unfold ClavesUnicas at hu ⊢
      simpa using hu
    have hpos : ∀ a : String, a ∈ resto.map Prod.fst →
        posicion ((id, d) :: resto) a = posicion resto a + 1 := by
      intro a ha
      have hne : a ≠ id := fun h => hu1.1 (h ▸ ha)
      simp only [posicion, List.map_cons]
      exact List.indexOf_cons_ne _ (fun h => hne h.symm)
    have hpos0 : posicion ((id, d) :: resto) id = 0 := by
      simp [posicion]
    simp only [comprobarClientes]
    rw [List.pairwise_append]
    refine ⟨?_, ?_, ?_⟩
    · refine List.Pairwise.imp_of_mem ?_ (comprobarCartones_orden id ns d.cartones 0)
      intro a b ha hb hab
      right
      exact ⟨(comprobarCartones_socket id ns d.cartones 0 a ha).trans
        (comprobarCartones_socket id ns d.cartones 0 b hb).symm, hab⟩
    · refine List.Pairwise.imp_of_mem ?_ (ih hu1.2)
      intro a b ha hb hab
      rcases hab with hab | hab
      · left
        rw [hpos _ (comprobarClientes_socket ns resto a ha),
          hpos _ (comprobarClientes_socket ns resto b hb)]
        omega
      · exact Or.inr hab
    · intro a ha b hb
      left
      rw [comprobarCartones_socket id ns d.cartones 0 a ha, hpos0,
        hpos _ (comprobarClientes_socket ns resto b hb)]
      omega

theorem antes_irreflexiva (cl : Clientes) (e : Evento) : ¬ Evento.antes cl e e := by
  intro h
  unfold Evento.antes Evento.antesEnCliente at h
  rcases h with h | ⟨_, h | ⟨_, h⟩⟩
  · omega
  · omega
  · cases e with
    | linea c ci fi =>
      have h1 : fi < fi := h
      omega
    | bingo c ci => exact h

theorem eventos_ordenados (s : Estado) (hu : ClavesUnicas s.clientes) :
    (eventosDe s).Pairwise (Evento.antes s.clientes) ∧ (eventosDe s).Nodup := by
  have h := comprobarClientes_orden s.numerosSalidos s.clientes hu
  refine ⟨h, ?_⟩
  unfold List.Nodup
  refine List.Pairwise.imp ?_ h
  intro a b hab heq
  rw [heq] at hab
  exact antes_irreflexiva s.clientes b hab

/-- C18: for a registry with unique ids, the event list `comprobarGanadoresGlobal`
returns is strictly increasing in the order "client in registry order, then ticket
index, then row index, the `bingo` of a ticket after its `linea` events"; so no
event occurs twice in it: at most one `linea` per (client, ticket, row) and at most
one `bingo` per (client, ticket). Every event is of a client of the registry. -/
theorem C18_eventos_en_orden (s : Estado) (hu : ClavesUnicas s.clientes) :
    (comprobarGanadoresGlobal s).1.Pairwise (Evento.antes s.clientes) ∧
    (comprobarGanadoresGlobal s).1.Nodup ∧
    (∀ (c : String) (ci fi : Nat),
      (comprobarGanadoresGlobal s).1.count (Evento.linea c ci fi) ≤ 1) ∧
    (∀ (c : String) (ci : Nat), (comprobarGanadoresGlobal s).1.count (Evento.bingo c ci) ≤ 1) ∧
    ∀ e ∈ (comprobarGanadoresGlobal s).1, e.socketId ∈ s.clientes.map Prod.fst := by
  obtain ⟨h1, h2⟩ := eventos_ordenados s hu
  refine ⟨h1, h2, ?_, ?_, ?_⟩
  · intro c ci fi
    exact List.nodup_iff_count_le_one.mp h2 _
  · intro c ci
    exact List.nodup_iff_count_le_one.mp h2 _
  · intro e he
    exact comprobarClientes_socket s.numerosSalidos s.clientes e he

/-- Witness of C18: the scan that follows the draw of 20 in the sample game. -/
theorem C18_eventos_en_orden_witness :
    ClavesUnicas (sacarNumeroDelBombo 0 estadoEjemplo).2.clientes ∧
    ((comprobarGanadoresGlobal (sacarNumeroDelBombo 0 estadoEjemplo).2).1.Pairwise
        (Evento.antes (sacarNumeroDelBombo 0 estadoEjemplo).2.clientes) ∧
    (comprobarGanadoresGlobal (sacarNumeroDelBombo 0 estadoEjemplo).2).1.Nodup ∧
    (∀ (c : String) (ci fi : Nat),
      (comprobarGanadoresGlobal (sacarNumeroDelBombo 0 estadoEjemplo).2).1.count
        (Evento.linea c ci fi) ≤ 1) ∧
    (∀ (c : String) (ci : Nat),
      (comprobarGanadoresGlobal (sacarNumeroDelBombo 0 estadoEjemplo).2).1.count
        (Evento.bingo c ci) ≤ 1) ∧
    ∀ e ∈ (comprobarGanadoresGlobal (sacarNumeroDelBombo 0 estadoEjemplo).2).1,
      e.socketId ∈ (sacarNumeroDelBombo 0 estadoEjemplo).2.clientes.map Prod.fst) :=
  ⟨by unfold ClavesUnicas; decide,
   C18_eventos_en_orden (sacarNumeroDelBombo 0 estadoEjemplo).2
     (by unfold ClavesUnicas; decide)⟩

/-! ## Events dropped after the first bingo of a tick -/

theorem primer_bingo_antes (pre post : List Evento) (c : String) (ci : Nat) :
    ∃ pre1 c1 ci1 post1,
      pre ++ Evento.bingo c ci :: post = pre1 ++ Evento.bingo c1 ci1 :: post1 ∧
      (∀ e ∈ pre1, e.esBingo = false) ∧ ∀ e ∈ post, e ∈ post1 := by
  induction pre with
  | nil => exact ⟨[], c, ci, post, rfl, by simp, fun e he => he⟩
  | cons x xs ih =>
    cases x with
    | bingo c0 ci0 =>
      refine ⟨[], c0, ci0, xs ++ Evento.bingo c ci :: post, rfl, by simp, ?_⟩
      intro e he
      simp [he]
    | linea c0 ci0 fi0 =>
      obtain ⟨pre1, c1, ci1, post1, h1, h2, h3⟩ := ih
      refine ⟨Evento.linea c0 ci0 fi0 :: pre1, c1, ci1, post1, by simp [h1], ?_, h3⟩
      intro e he
      rcases List.mem_cons.mp he with h | h
      · rw [h]; rfl
      · exact h2 e h

theorem notificar_comun (e e1 : Evento) (m : Mensaje) (h : m ∈ notificar e)
    (h1 : m ∈ notificar e1) :
    e.socketId = e1.socketId ∧ e.cartonIndex = e1.cartonIndex := by
  cases e with
  | linea c ci fi =>
    cases e1 with
    | linea c1 ci1 fi1 =>
      simp only [notificar, notificarLinea, List.mem_cons, List.mem_singleton,
        List.not_mem_nil, or_false] at h h1
      rcases h with h | h <;> rcases h1 with h1 | h1 <;> rw [h] at h1 <;>
        simp [Evento.socketId, Evento.cartonIndex] at h1 ⊢ <;> simp [h1]
    | bingo c1 ci1 =>
      simp only [notificar, notificarLinea, notificarBingo, List.mem_cons, List.mem_singleton,
        List.not_mem_nil, or_false] at h h1
      rcases h with h | h <;> rcases h1 with h1 | h1 <;> rw [h] at h1 <;> simp at h1
  | bingo c ci =>
    cases e1 with
    | linea c1 ci1 fi1 =>
      simp only [notificar, notificarLinea, notificarBingo, List.mem_cons, List.mem_singleton,
        List.not_mem_nil, or_false] at h h1
      rcases h with h | h <;> rcases h1 with h1 | h1 <;> rw [h] at h1 <;> simp at h1
    | bingo c1 ci1 =>
      simp only [notificar, notificarBingo, List.mem_cons, List.mem_singleton,
        List.not_mem_nil, or_false] at h h1
      rcases h with h | h <;> rcases h1 with h1 | h1 <;> rw [h] at h1 <;>
        simp [Evento.socketId, Evento.cartonIndex] at h1 ⊢ <;> simp [h1]

theorem notificar_evento (e : Evento) (m : Mensaje) (h : m ∈ notificar e) :
    m.evento ≠ "numero" ∧ m.evento ≠ "juego-terminado" := by
  cases e with
  | linea c ci fi =>
    simp only [notificar, notificarLinea, List.mem_cons, List.mem_singleton,
      List.not_mem_nil, or_false] at h
    rcases h with h | h <;> rw [h] <;> refine ⟨?_, ?_⟩ <;> dsimp only <;> decide
  | bingo c ci =>
    simp only [notificar, notificarBingo, List.mem_cons, List.mem_singleton,
      List.not_mem_nil, or_false] at h
    rcases h with h | h <;> rw [h] <;> refine ⟨?_, ?_⟩ <;> dsimp only <;> decide

theorem posicion_eq_of_eq (cl : Clientes) (a b : String) (h : a = b) :
    posicion cl a = posicion cl b := by rw [h]

theorem mismo_carton_no_tras_bingo (cl : Clientes) (e1 e : Evento) (c : String) (ci : Nat)
    (h1 : e1 = Evento.bingo c ci ∨ Evento.antes cl e1 (Evento.bingo c ci))
    (h2 : Evento.antes cl (Evento.bingo c ci) e)
    (hs : e.socketId = e1.socketId) (hc : e.cartonIndex = e1.cartonIndex) : False := by
  have hp := posicion_eq_of_eq cl _ _ hs
  have hbs : (Evento.bingo c ci).socketId = c := rfl
  have hbc : (Evento.bingo c ci).cartonIndex = ci := rfl
  unfold Evento.antes Evento.antesEnCliente at h1 h2
  simp only [hbs, hbc] at h2
  rcases h1 with h1 | h1
  · rw [h1] at hs hc hp
    simp only [hbs, hbc] at hs hc hp
    rcases h2 with h2 | ⟨_, h2 | ⟨_, h2⟩⟩
    · omega
    · omega
    · exact h2
  · simp only [hbs, hbc] at h1
    rcases h2 with h2 | ⟨h2s, h2 | ⟨_, h2⟩⟩
    · rcases h1 with h1 | ⟨h1s, _⟩
      · omega
      · have := posicion_eq_of_eq cl _ _ h1s
        omega
    · have hp2 := posicion_eq_of_eq cl _ _ h2s
      rcases h1 with h1 | ⟨_, h1 | ⟨h1c, _⟩⟩
      · omega
      · omega
      · omega
    · exact h2

theorem evento_tiene_carton (ns : List Nat) (cl : Clientes) (hu : ClavesUnicas cl) (e : Evento)
    (h : e ∈ (comprobarClientes ns cl).2) :
    ∃ k, cartonDe cl e.socketId e.cartonIndex = some k ∧
      e ∈ (comprobarCarton e.socketId ns e.cartonIndex k).2 := by
  obtain ⟨p, hp, he⟩ := (comprobarClientes_mem ns cl e).mp h
  obtain ⟨i, k, hk, hek⟩ := (comprobarCartones_mem p.1 ns p.2.cartones 0 e).mp he
  obtain ⟨hs, hc⟩ := comprobarCarton_origen p.1 ns (0 + i) k e hek
  refine ⟨k, ?_, ?_⟩
  · unfold cartonDe
    rw [hs, find_clave_unica cl hu p hp, hc]
    simpa using hk
  · rw [hs, hc]
    exact hek

theorem bandera_tras_escaneo (s : Estado) (hu : ClavesUnicas s.clientes) (e : Evento)
    (h : e ∈ eventosDe s) : banderaPuesta (comprobarGanadoresGlobal s).2.clientes e := by
  obtain ⟨k, hk, hek⟩ := evento_tiene_carton s.numerosSalidos s.clientes hu e h
  have hk1 := cartonDe_comprobarClientes s.numerosSalidos s.clientes _ _ k hk
  cases e with
  | linea c ci fi =>
    exact ⟨_, hk1, (comprobarCarton_linea_emitida c s.numerosSalidos ci k fi hek).2.1⟩
  | bingo c ci =>
    exact ⟨_, hk1, (comprobarCarton_bingo_emitido c s.numerosSalidos ci k hek).2.1⟩

theorem bandera_sin_evento (cl : Clientes) (s : Estado) (hcl : s.clientes = cl)
    (hu : ClavesUnicas cl) (e : Evento) (hb : banderaPuesta cl e) (ops : List Op) :
    ∀ st ∈ escaneos ops s, e ∉ eventosDe st := by
  subst hcl
  intro st hst hem
  cases e with
  | linea c ci fi =>
    obtain ⟨k, hk, hf⟩ := hb
    have h := (linea_a_lo_mas_una c ci fi ops s k hu hk).1
    rw [if_pos hf, Nat.le_zero, List.countP_eq_zero] at h
    exact h st hst (by simpa using hem)
  | bingo c ci =>
    obtain ⟨k, hk, hf⟩ := hb
    have h := bingo_a_lo_mas_uno c ci ops s k hu hk
    rw [if_pos hf, Nat.le_zero, List.countP_eq_zero] at h
    exact h st hst (by simpa using hem)

theorem tick_eventos (rnd : Nat) (s : Estado) (evs : List Evento)
    (h : (tick rnd s).eventos = some evs) :
    evs = eventosDe (sacarNumeroDelBombo rnd s).2 ∧
    (sacarNumeroDelBombo rnd s).2.clientes = s.clientes ∧
    (tick rnd s).estado.clientes =
      (comprobarGanadoresGlobal (sacarNumeroDelBombo rnd s).2).2.clientes := by
  have hesc : escaneoDe (Op.tick rnd) s = some (sacarNumeroDelBombo rnd s).2 := by
    unfold tick at h
    simp only [escaneoDe]
    rcases hd : sacarNumeroDelBombo rnd s with ⟨_ | numero, s1⟩
    · rw [hd] at h
      simp at h
    · rfl
  obtain ⟨h1, h2⟩ := paso_con_escaneo (Op.tick rnd) s _ hesc
  refine ⟨?_, h1, h2⟩
  unfold tick at h
  rcases hd : sacarNumeroDelBombo rnd s with ⟨_ | numero, s1⟩
  · rw [hd] at h
    simp at h
  · rw [hd] at h
    simp only [Option.some.injEq] at h
    rw [← h]
    rfl

theorem claves_tras_escaneo (s : Estado) (hu : ClavesUnicas s.clientes) :
    ClavesUnicas (comprobarGanadoresGlobal s).2.clientes := by
  unfold ClavesUnicas
  show ((comprobarClientes s.numerosSalidos s.clientes).1.map Prod.fst).Nodup
  rw [comprobarClientes_claves]
  exact hu

theorem tick_evento_perdido (rnd : Nat) (s : Estado) (pre post : List Evento)
    (c : String) (ci : Nat) (e : Evento) (hu : ClavesUnicas s.clientes)
    (hscan : (tick rnd s).eventos = some (pre ++ Evento.bingo c ci :: post))
    (hpre : ∀ e1 ∈ pre, e1.esBingo = false) (he : e ∈ post) :
    (∀ m ∈ notificar e, m ∉ (tick rnd s).mensajes) ∧
    banderaPuesta (tick rnd s).estado.clientes e ∧
    ∀ (ops : List Op), ∀ st ∈ escaneos ops (tick rnd s).estado, e ∉ eventosDe st := by
  obtain ⟨hev, hcl, hdesp⟩ := tick_eventos rnd s _ hscan
  have hu1 : ClavesUnicas (sacarNumeroDelBombo rnd s).2.clientes := by rw [hcl]; exact hu
  have hord := (eventos_ordenados _ hu1).1
  rw [← hev, List.pairwise_append] at hord
  obtain ⟨_, hbp, hcross⟩ := hord
  have hbe : Evento.antes (sacarNumeroDelBombo rnd s).2.clientes (Evento.bingo c ci) e :=
    (List.pairwise_cons.mp hbp).1 e he
  have hmem : e ∈ eventosDe (sacarNumeroDelBombo rnd s).2 := by
    rw [← hev]
    exact List.mem_append_right _ (List.mem_cons_of_mem _ he)
  have hband : banderaPuesta (tick rnd s).estado.clientes e := by
    rw [hdesp]
    exact bandera_tras_escaneo _ hu1 e hmem
  refine ⟨?_, hband, ?_⟩
  · intro m hm hmm
    obtain ⟨numero, _, hmsgs, _⟩ := tick_primer_bingo rnd s pre post c ci hscan hpre
    obtain ⟨hn1, hn2⟩ := notificar_evento e m hm
    rw [hmsgs] at hmm
    simp only [List.mem_append, List.mem_singleton, List.mem_flatMap] at hmm
    rcases hmm with ((hmm | ⟨e1, he1, hm1⟩) | hmm) | hmm
    · rw [hmm] at hn1
      exact hn1 rfl
    · obtain ⟨hs, hc⟩ := notificar_comun e e1 m hm hm1
      exact mismo_carton_no_tras_bingo _ e1 e c ci
        (Or.inr (hcross e1 he1 _ (List.mem_cons_self _ _))) hbe hs hc
    · have hm1 : m ∈ notificar (Evento.bingo c ci) := by
        simpa [notificar, notificarBingo] using hmm
      obtain ⟨hs, hc⟩ := notificar_comun e _ m hm hm1
      exact mismo_carton_no_tras_bingo _ (Evento.bingo c ci) e c ci (Or.inl rfl) hbe hs hc
    · rw [hmm] at hn2
      exact hn2 rfl
  · intro ops
    refine bandera_sin_evento _ _ rfl ?_ e hband ops
    rw [hdesp]
    exact claves_tras_escaneo _ hu1

/-! ## Claims on dropped events and on the registry at a start -/

/-- C19: when the event list of a tick holds a `bingo` followed, anywhere later in
the list, by an event `e` (a `linea` or a `bingo`), the tick emits none of the
notifications of `e`, yet it leaves the flag of `e` set (the row flag for a `linea`,
the bingo flag for a `bingo`), and no scan of any later run returns `e` again. -/
theorem C19_evento_perdido (rnd : Nat) (s : Estado) (pre post : List Evento)
    (c : String) (ci : Nat) (e : Evento) (hu : ClavesUnicas s.clientes)
    (hscan : (tick rnd s).eventos = some (pre ++ Evento.bingo c ci :: post))
    (he : e ∈ post) :
    (∀ m ∈ notificar e, m ∉ (tick rnd s).mensajes) ∧
    banderaPuesta (tick rnd s).estado.clientes e ∧
    ∀ (ops : List Op), ∀ st ∈ escaneos ops (tick rnd s).estado, e ∉ eventosDe st := by
  obtain ⟨pre1, c1, ci1, post1, h1, h2, h3⟩ := primer_bingo_antes pre post c ci
  rw [h1] at hscan
  exact tick_evento_perdido rnd s pre1 post1 c1 ci1 e hu hscan h2 (h3 e he)

/-- Witness of C19: in the sample game the draw of 20 gives the first client a
bingo and completes the first row of the second client, whose `linea` is dropped. -/
theorem C19_evento_perdido_witness :
    ClavesUnicas estadoEjemplo.clientes ∧
    (tick 0 estadoEjemplo).eventos =
      some ([Evento.linea "abcdefgh" 0 2] ++
        Evento.bingo "abcdefgh" 0 :: [Evento.linea "zyxwvuts" 0 0]) ∧
    ((∀ m ∈ notificar (Evento.linea "zyxwvuts" 0 0), m ∉ (tick 0 estadoEjemplo).mensajes) ∧
    banderaPuesta (tick 0 estadoEjemplo).estado.clientes (Evento.linea "zyxwvuts" 0 0) ∧
    ∀ (ops : List Op), ∀ st ∈ escaneos ops (tick 0 estadoEjemplo).estado,
      Evento.linea "zyxwvuts" 0 0 ∉ eventosDe st) :=
  ⟨by unfold ClavesUnicas; decide, by decide,
   C19_evento_perdido 0 estadoEjemplo [Evento.linea "abcdefgh" 0 2]
     [Evento.linea "zyxwvuts" 0 0] "abcdefgh" 0 (Evento.linea "zyxwvuts" 0 0)
     (by unfold ClavesUnicas; decide) (by decide) (by decide)⟩

/-- C20: `resetBombo` and `iniciarJuegoAutomatico`, whether the start succeeds or
not, leave the registry as it was: every client, ticket number, row flag and bingo
flag. So a ticket looked up after the start of the next game is the ticket as the
earlier game left it, flags included. -/
theorem C20_iniciar_no_toca_clientes (h : Timeout) (s : Estado) :
    (resetBombo s).clientes = s.clientes ∧
    (iniciarJuegoAutomatico h s).2.1.clientes = s.clientes ∧
    ∀ (c : String) (ci : Nat),
      cartonDe (iniciarJuegoAutomatico h s).2.1.clientes c ci = cartonDe s.clientes c ci := by
  refine ⟨rfl, iniciar_clientes h s, ?_⟩
  intro c ci
  rw [iniciar_clientes]

set_option maxRecDepth 100000 in
/-- In the sample run over two games, the second start finds the two row flags the
first game set on the ticket of the second client, and leaves them set. -/
theorem opsDosJuegos_banderas :
    cartonDe (ejecutarTodos (Op.iniciar { id := 1 } :: List.replicate 21 (Op.tick 0))
        estadoDosClientes).clientes "zyxwvuts" 0 =
      some { filas := [[0, 1, 2, 3, 4, 5, 6], [7, 8, 9, 10, 11, 12, 13],
                       [21, 22, 23, 24, 25, 26, 27]],
             rowFlags := [true, true, false], bingo := false } ∧
    cartonDe (ejecutarTodos (Op.iniciar { id := 1 } :: List.replicate 21 (Op.tick 0) ++
        [Op.iniciar { id := 2 }]) estadoDosClientes).clientes "zyxwvuts" 0 =
      some { filas := [[0, 1, 2, 3, 4, 5, 6], [7, 8, 9, 10, 11, 12, 13],
                       [21, 22, 23, 24, 25, 26, 27]],
             rowFlags := [true, true, false], bingo := false } := by
  decide

/-! ## Ticket requests of a registered client -/

theorem agregarCartones_spec (rnd : Nat → Nat) (n : Nat) :
    ∀ (k0 : Nat) (cartones : List Carton),
      ∃ nuevos, agregarCartones rnd n k0 cartones = some (cartones ++ nuevos) ∧
        nuevos.length = n ∧
        ∀ k ∈ nuevos, k.rowFlags = [false, false, false] ∧ k.bingo = false ∧
          k.filas.length = 3 ∧ k.filas.flatten.Nodup := by
  induction n with
  | zero =>
    intro k0 cartones
    exact ⟨[], by simp [agregarCartones], rfl, by simp⟩
  | succ n ih =>
    intro k0 cartones
    obtain ⟨k, hk, hlen, _, _, hnd, hrf, hb⟩ := generarCarton_spec (fun j => rnd (k0 + j))
    obtain ⟨nuevos, h1, h2, h3⟩ :=
      ih (k0 + FILAS_POR_CARTON * NUMEROS_POR_FILA) (cartones ++ [k])
    refine ⟨k :: nuevos, ?_, by simp [h2], ?_⟩
    · simp only [agregarCartones, hk, h1, List.append_assoc, List.singleton_append]
    · intro k1 hk1
      rcases List.mem_cons.mp hk1 with h | h
      · rw [h]
        exact ⟨hrf, hb, hlen, hnd⟩
      · exact h3 k1 h

/-- A ticket request of a client that is in the registry never fails: it appends
`cantidad` fresh tickets (one when the count is absent, none when it is zero or
less) to the tickets of that client and sends the client its whole list. -/
theorem alRequestCartones_presente (id : String) (cantidad : Option Int) (rnd : Nat → Nat)
    (s : Estado) (cliente : Cliente) (h : buscarCliente s.clientes id = some cliente) :
    ∃ nuevos,
      nuevos.length = (cantidad.getD 1).toNat ∧
      (∀ k ∈ nuevos, k.rowFlags = [false, false, false] ∧ k.bingo = false ∧
        k.filas.length = 3 ∧ k.filas.flatten.Nodup) ∧
      (alRequestCartones id cantidad rnd s).fallo = none ∧
      (alRequestCartones id cantidad rnd s).mensajes =
        [{ destino := some id, evento := "cartones",
           payload := Payload.cartones (cliente.cartones ++ nuevos) }] ∧
      buscarCliente (alRequestCartones id cantidad rnd s).estado.clientes id =
        some { cliente with cartones := cliente.cartones ++ nuevos } := by
  obtain ⟨nuevos, h1, h2, h3⟩ :=
    agregarCartones_spec rnd (cantidad.getD 1).toNat 0 cliente.cartones
  refine ⟨nuevos, h2, h3, ?_, ?_, ?_⟩
  · simp [alRequestCartones, h, h1]
  · simp [alRequestCartones, h, h1]
  · simp only [alRequestCartones, h, h1, buscar_actualizar_mismo, Option.map_some']

/-! ## The win scan with the row constant as a parameter -/

theorem comprobarCartonCon_fuente (c : String) (ns : List Nat) (ci : Nat) (k : Carton) :
    comprobarCartonCon FILAS_POR_CARTON c ns ci k = comprobarCarton c ns ci k := rfl

theorem comprobarCartonesCon_fuente (c : String) (ns : List Nat) (cartones : List Carton) :
    ∀ ci0 : Nat, comprobarCartonesCon FILAS_POR_CARTON c ns ci0 cartones =
      comprobarCartones c ns ci0 cartones := by
  induction cartones with
  | nil => intro ci0; rfl
  | cons k resto ih =>
    intro ci0
    simp only [comprobarCartonesCon, comprobarCartones, ih, comprobarCartonCon_fuente]

theorem comprobarClientesCon_fuente (ns : List Nat) (cl : Clientes) :
    comprobarClientesCon FILAS_POR_CARTON ns cl = comprobarClientes ns cl := by
  induction cl with
  | nil => rfl
  | cons p resto ih =>
    obtain ⟨id, d⟩ := p
    simp only [comprobarClientesCon, comprobarClientes, ih, comprobarCartonesCon_fuente]

/-- With the constant of the source for the parameter, the parameterised scan is
the scan of the source. -/
theorem comprobarGanadoresGlobalCon_fuente (s : Estado) :
    comprobarGanadoresGlobalCon FILAS_POR_CARTON s = comprobarGanadoresGlobal s := by
  simp only [comprobarGanadoresGlobalCon, comprobarGanadoresGlobal, comprobarClientesCon_fuente]

theorem comprobarCartonesCon_get (n : Nat) (c : String) (ns : List Nat)
    (cartones : List Carton) :
    ∀ (ci0 i : Nat), (comprobarCartonesCon n c ns ci0 cartones).1[i]? =
      (cartones[i]?).map (fun k => (comprobarCartonCon n c ns (ci0 + i) k).1) := by
  induction cartones with
  | nil => intro ci0 i; simp [comprobarCartonesCon]
  | cons k resto ih =>
    intro ci0 i
    cases i with
    | zero => simp [comprobarCartonesCon]
    | succ i =>
      simp only [comprobarCartonesCon, List.getElem?_cons_succ, ih (ci0 + 1) i]
      rw [show ci0 + 1 + i = ci0 + (i + 1) by omega]

theorem comprobarCartonesCon_mem (n : Nat) (c : String) (ns : List Nat)
    (cartones : List Carton) :
    ∀ (ci0 : Nat) (e : Evento), e ∈ (comprobarCartonesCon n c ns ci0 cartones).2 ↔
      ∃ i k, cartones[i]? = some k ∧ e ∈ (comprobarCartonCon n c ns (ci0 + i) k).2 := by
  induction cartones with
  | nil => intro ci0 e; simp [comprobarCartonesCon]
  | cons k resto ih =>
    intro ci0 e
    simp only [comprobarCartonesCon, List.mem_append, ih (ci0 + 1) e]
    constructor
    · rintro (h | ⟨i, k1, h1, h2⟩)
      · exact ⟨0, k, by simp, h⟩
      · refine ⟨i + 1, k1, by simpa using h1, ?_⟩
        rw [show ci0 + (i + 1) = ci0 + 1 + i by omega]
        exact h2
    · rintro ⟨i, k1, h1, h2⟩
      cases i with
      | zero =>
        left
        simp only [List.getElem?_cons_zero, Option.some.injEq] at h1
        rw [h1]
        exact h2
      | succ i =>
        right
        refine ⟨i, k1, by simpa using h1, ?_⟩
        rw [show ci0 + 1 + i = ci0 + (i + 1) by omega]
        exact h2

theorem comprobarClientesCon_find (n : Nat) (ns : List Nat) (c : String) (cl : Clientes) :
    (comprobarClientesCon n ns cl).1.find? (fun p => p.1 == c) =
      (cl.find? (fun p => p.1 == c)).map
        (fun p =>
          (p.1, { p.2 with cartones := (comprobarCartonesCon n p.1 ns 0 p.2.cartones).1 })) := by
  induction cl with
  | nil => rfl
  | cons p resto ih =>
    obtain ⟨id, d⟩ := p
    simp only [comprobarClientesCon, List.find?_cons]
    cases hid : id == c with
    | true => simp
    | false => simpa using ih

theorem comprobarClientesCon_mem (n : Nat) (ns : List Nat) (cl : Clientes) (e : Evento) :
    e ∈ (comprobarClientesCon n ns cl).2 ↔
      ∃ p ∈ cl, e ∈ (comprobarCartonesCon n p.1 ns 0 p.2.cartones).2 := by
  induction cl with
  | nil => simp [comprobarClientesCon]
  | cons p resto ih =>
    obtain ⟨id, d⟩ := p
    simp only [comprobarClientesCon, List.mem_append, ih, List.mem_cons, exists_eq_or_imp]

theorem cartonDe_comprobarClientesCon (n : Nat) (ns : List Nat) (cl : Clientes) (c : String)
    (ci : Nat) (k : Carton) (h : cartonDe cl c ci = some k) :
    cartonDe (comprobarClientesCon n ns cl).1 c ci = some (comprobarCartonCon n c ns ci k).1 := by
  unfold cartonDe at h ⊢
  rw [comprobarClientesCon_find]
  cases hf : cl.find? (fun p => p.1 == c) with
  | none => simp [hf] at h
  | some p =>
    have hc : p.1 = c := by simpa using List.find?_some hf
    simp only [hf] at h
    simp only [Option.map_some', comprobarCartonesCon_get, h, Nat.zero_add, hc]

theorem eventos_de_carton_Con (n : Nat) (ns : List Nat) (cl : Clientes) (c : String) (ci : Nat)
    (k : Carton) (h : cartonDe cl c ci = some k) (e : Evento)
    (he : e ∈ (comprobarCartonCon n c ns ci k).2) :
    e ∈ (comprobarClientesCon n ns cl).2 := by
  rw [comprobarClientesCon_mem]
  unfold cartonDe at h
  cases hf : cl.find? (fun p => p.1 == c) with
  | none => simp [hf] at h
  | some p =>
    have hpc : p.1 = c := by simpa using List.find?_some hf
    simp only [hf] at h
    refine ⟨p, List.mem_of_find?_eq_some hf, ?_⟩
    rw [comprobarCartonesCon_mem]
    refine ⟨ci, k, h, ?_⟩
    rw [hpc, Nat.zero_add]
    exact he

/-- C12: with tickets of one row (the row constant of line 25 set to 1, as the
scenario configures it), for a ticket with the single row `[2, 7, 5]`, its row flag
and its bingo flag false, a scan whose history holds 2, 5 and 7 returns the `linea`
event of that row and, in the same scan, sets the bingo flag of the ticket and
returns its `bingo` event. -/
theorem C12_una_fila_linea_y_bingo (s : Estado) (c : String) (ci : Nat) (rf : List Bool)
    (hk : cartonDe s.clientes c ci = some { filas := [[2, 7, 5]], rowFlags := rf, bingo := false })
    (hrf : leerFlag rf 0 = false)
    (h2 : 2 ∈ s.numerosSalidos) (h5 : 5 ∈ s.numerosSalidos) (h7 : 7 ∈ s.numerosSalidos) :
    Evento.linea c ci 0 ∈ (comprobarGanadoresGlobalCon 1 s).1 ∧
    Evento.bingo c ci ∈ (comprobarGanadoresGlobalCon 1 s).1 ∧
    cartonDe (comprobarGanadoresGlobalCon 1 s).2.clientes c ci =
      some { filas := [[2, 7, 5]], rowFlags := ponerFlag rf 0, bingo := true } ∧
    leerFlag (ponerFlag rf 0) 0 = true := by
  have hc : filaCompleta s.numerosSalidos [2, 7, 5] = true := by
    rw [filaCompleta_iff]
    intro n hn
    simp only [List.mem_cons, List.mem_singleton, List.not_mem_nil, or_false] at hn
    rcases hn with h | h | h <;> (rw [h]; assumption)
  have hcar : comprobarCartonCon 1 c s.numerosSalidos ci
      { filas := [[2, 7, 5]], rowFlags := rf, bingo := false } =
      ({ filas := [[2, 7, 5]], rowFlags := ponerFlag rf 0, bingo := true },
        [Evento.linea c ci 0, Evento.bingo c ci]) := by
    simp [comprobarCartonCon, comprobarFilas, hc, hrf]
  have hk1 := cartonDe_comprobarClientesCon 1 s.numerosSalidos s.clientes c ci _ hk
  rw [hcar] at hk1
  refine ⟨?_, ?_, hk1, ?_⟩
  · refine eventos_de_carton_Con 1 s.numerosSalidos s.clientes c ci _ hk _ ?_
    rw [hcar]
    simp
  · refine eventos_de_carton_Con 1 s.numerosSalidos s.clientes c ci _ hk _ ?_
    rw [hcar]
    simp
  · rw [leerFlag_ponerFlag]
    simp

/-- Witness of C12: the sample state with the one-row ticket and the history
`[2, 5, 7]`. -/
theorem C12_una_fila_linea_y_bingo_witness :
    cartonDe estadoUnaFila.clientes "abcdefgh" 0 =
      some { filas := [[2, 7, 5]], rowFlags := [false, false, false], bingo := false } ∧
    (Evento.linea "abcdefgh" 0 0 ∈ (comprobarGanadoresGlobalCon 1 estadoUnaFila).1 ∧
    Evento.bingo "abcdefgh" 0 ∈ (comprobarGanadoresGlobalCon 1 estadoUnaFila).1 ∧
    cartonDe (comprobarGanadoresGlobalCon 1 estadoUnaFila).2.clientes "abcdefgh" 0 =
      some { filas := [[2, 7, 5]], rowFlags := ponerFlag [false, false, false] 0,
             bingo := true } ∧
    leerFlag (ponerFlag [false, false, false] 0) 0 = true) :=
  ⟨by decide,
   C12_una_fila_linea_y_bingo estadoUnaFila "abcdefgh" 0 [false, false, false]
     (by decide) (by decide) (by decide) (by decide) (by decide)⟩

/-- The scan of the one-row scenario evaluated: with the row constant 1 the sample
state gives the `linea` and then the `bingo`, whatever the order of the history. -/
theorem estadoUnaFila_eventos :
    (comprobarGanadoresGlobalCon 1 estadoUnaFila).1 =
      [Evento.linea "abcdefgh" 0 0, Evento.bingo "abcdefgh" 0] ∧
    (comprobarGanadoresGlobalCon 1 { estadoUnaFila with numerosSalidos := [7, 2, 5] }).1 =
      [Evento.linea "abcdefgh" 0 0, Evento.bingo "abcdefgh" 0] ∧
    (comprobarGanadoresGlobalCon 1 { estadoUnaFila with numerosSalidos := [2, 5] }).1 = [] := by
  decide

end Bingo
